import Mathlib

/-!
Verification development for the Taiwan-stock correlation engine
(`stock_utils.py`): a shallow embedding of the price batch fetcher,
the correlation ranking (`calculate_correlations`) and the pair
comparison (`get_two_stocks_comparison`), with theorems settling the
behavioural claims about them.

Modelling conventions:
* Trading dates are natural numbers (days since 1970-01-01); closing
  prices are exact rationals (floating point is modelled by exact
  arithmetic on ℚ).
* The network provider (`yf.download`) is external: its raw response is
  an explicit input of the model (`RawResp`), either a failure
  (a raised exception in the source) or a table with a shared date
  index and ticker-keyed close columns, possibly with missing cells.
* `pandas` primitives are modelled on the normalized shapes they are
  applied to in the source: series are date-keyed association lists;
  `merge(how="inner")`/`join(how="inner")` on the strictly
  date-sorted, duplicate-free series produced by the fetcher is the
  sorted merge join; `NaN`/`None` cells are `Option.none`.
* `sort_values` is modelled by a concrete comparison sort
  (`stableSort`).  With the default `kind="quicksort"`, `pandas`
  documents only that the output is a permutation ordered in the key,
  with missing-key rows segregated after all present-key rows; it does
  *not* guarantee any particular order among rows tied on a present
  key.  The theorems below rely only on the documented guarantees
  (permutation, sortedness, missing-last); the concrete tie order the
  model's sort happens to produce is a modelling artifact that no
  theorem uses.  (On the date column the question does not arise: the
  keys are distinct after deduplication, so every correct sort agrees.)
-/

set_option maxRecDepth 100000

namespace TwStock

attribute [local semireducible] Rat.add Rat.mul Rat.inv Rat.sub

/-- A per-instrument price series: (date, close) rows, as produced by the
fetcher (date-ascending, duplicate-free). -/
abbrev Series := List (ℕ × ℚ)

/-- A joined two-instrument series: (date, close₁, close₂) rows. -/
abbrev Joined := List (ℕ × ℚ × ℚ)

/-- Association-list lookup by first component (a Python `dict` read,
`dict.get(k)`). -/
def assocLookup {β : Type} (k : String) : List (String × β) → Option β
  | [] => none
  | (k', v) :: rest => if k' = k then some v else assocLookup k rest

/-- `DataFrame.tail(n)` / `Series.tail(n)`: the most recent `n` rows. -/
def tailN {α : Type} (n : ℕ) (l : List α) : List α := l.drop (l.length - n)

/-- Keep-first deduplication with an accumulator of the keys already
seen (the recursion worker of `dedupByKey`). -/
def dedupSeen {α κ : Type} [DecidableEq κ] (key : α → κ) (seen : List κ) :
    List α → List α
  | [] => []
  | x :: xs =>
    if key x ∈ seen then dedupSeen key seen xs
    else x :: dedupSeen key (key x :: seen) xs

/-- `drop_duplicates(subset=[key], keep="first")`: keep the first row for
each key, preserving order. -/
def dedupByKey {α κ : Type} [DecidableEq κ] (key : α → κ)
    (l : List α) : List α :=
  dedupSeen key [] l

/-- One step of the insertion sort: place `x` after every element that
strictly precedes it, before everything else.  `lt y x` means "`y`
strictly precedes `x`". -/
def stableInsert {α : Type} (lt : α → α → Bool) (x : α) : List α → List α
  | [] => [x]
  | y :: ys => if lt y x then y :: stableInsert lt x ys else x :: y :: ys

/-- A concrete comparison sort by the strict precedence `lt`, the model
of `sort_values`.  Only its documented-by-`pandas` properties are used
by any theorem: the output is a permutation of the input
(`stableSort_perm`) ordered so that no later element strictly precedes
an earlier one (`pairwise_stableSort`) — for the correlation sort key
this makes missing keys come last, and for the (duplicate-free) date
key it determines the output uniquely.  The order this implementation
happens to give elements tied on a present key is *not* a property of
the program (the default `kind="quicksort"` is not stable) and is not
used. -/
def stableSort {α : Type} (lt : α → α → Bool) : List α → List α
  | [] => []
  | x :: xs => stableInsert lt x (stableSort lt xs)

/-- Strict date precedence between rows of a series, the sort key of
`sort_values("date")`. -/
def dateLT (a b : ℕ × ℚ) : Bool := a.1 < b.1

/-- The raw batched provider response (`yf.download`): either a raised
exception, or a table with a shared date index and string-keyed close
columns (cells may be missing).  In the multi-ticker shape the keys are
provider tickers; in the single-ticker shape the close column is keyed
`"Close"`. -/
inductive RawResp : Type
  | fail : RawResp
  | table (index : List ℕ) (cols : List (String × List (Option ℚ))) : RawResp
deriving DecidableEq

/-- Venue-dependent ticker syntax (`_to_yf_ticker`).  The listing-venue
lookup consults the external `twstock` catalog; the model fixes the
catalog's documented fallback (primary board, `".TW"`).  The choice is
invisible to every claim: response columns and lookups use the same
mapping. -/
def to_yf_ticker (sid : String) : String := sid ++ ".TW"

/-- Catalog name lookup (`get_stock_name`).  The catalog is an external
collaborator; the model fixes its documented miss fallback: the
identifier itself. -/
def get_stock_name (sid : String) : String := sid

/-- Catalog classification lookup (`get_stock_group`), modelled at its
documented miss fallback: the empty classification. -/
def get_stock_group (_sid : String) : String := ""

/-- Normalization of one raw close column into a Price Series
(`stock_utils.py:107-109,118-120`): pair the date index with the cells,
drop missing closes, deduplicate by date keeping the first row, sort
ascending by date. -/
def normalizeSeries (index : List ℕ) (col : List (Option ℚ)) : Series :=
  stableSort dateLT
    (dedupByKey Prod.fst
      ((index.zip col).filterMap (fun dc => dc.2.map (fun v => (dc.1, v)))))

/-- `fetch_stocks_prices(sids, days_back)` (`stock_utils.py:70-123`),
as a function of the raw provider response: empty input → empty mapping;
provider exception → empty mapping; empty frame → empty mapping;
otherwise one normalized series per requested identifier whose column is
present in the response (single-identifier requests read the flat
`"Close"` column; multi-identifier requests read the per-ticker column;
the `dict`-comprehension collapses duplicate identifiers). -/
def fetch_stocks_prices (sids : List String) (resp : RawResp) :
    List (String × Series) :=
  if sids.isEmpty then []
  else
    match resp with
    | .fail => []
    | .table index cols =>
      if index.isEmpty ∨ cols.isEmpty then []
      else
        match sids with
        | [s] =>
          match assocLookup "Close" cols with
          | none => []
          | some c => [(s, normalizeSeries index c)]
        | _ =>
          (dedupByKey id sids).filterMap
            (fun s => (assocLookup (to_yf_ticker s) cols).map
              (fun c => (s, normalizeSeries index c)))

/-- The inner loop of the sorted merge join: the left head `(d₁, p₁)` is
fixed and `rec` joins the left tail with any right series. -/
def mjInner (d₁ : ℕ) (p₁ : ℚ) (rec : Series → Joined) : Series → Joined
  | [] => []
  | (d₂, p₂) :: t₂ =>
    if d₁ < d₂ then rec ((d₂, p₂) :: t₂)
    else if d₂ < d₁ then mjInner d₁ p₁ rec t₂
    else (d₁, p₁, p₂) :: rec t₂

/-- Inner join by date of two Price Series (`merge(..., on="date",
how="inner")` / `join(..., how="inner")`).  On the strictly
date-ascending duplicate-free series the fetcher produces, the `pandas`
inner join is exactly this sorted merge join. -/
def mergeJoin : Series → Series → Joined
  | [], _ => []
  | (d₁, p₁) :: t₁, b => mjInner d₁ p₁ (mergeJoin t₁) b

/-- Arithmetic mean of a list (`Series.mean`, `rolling(n).mean()` on a
full window). -/
def meanQ (l : List ℚ) : ℚ := l.sum / l.length

/-- Centered cross-product sum `Σ (xᵢ - x̄)(yᵢ - ȳ)` (the covariance
numerator of the Pearson formula). -/
def covSum (xs ys : List ℚ) : ℚ :=
  (List.zipWith (fun x y => (x - meanQ xs) * (y - meanQ ys)) xs ys).sum

/-- Centered square sum `Σ (xᵢ - x̄)²` (the variance numerator of the
Pearson formula). -/
def varSum (xs : List ℚ) : ℚ := covSum xs xs

/-- `Series.corr` (Pearson).  The true coefficient is
`r = S / √(Pₓ·Pᵧ)` with `S = covSum`, `Pₓ = varSum xs`, `Pᵧ = varSum ys`;
the square root is irrational in general, so the model carries the
order-isomorphic reparameterization `sign(r)·r² = S·|S| / (Pₓ·Pᵧ)`,
which is exact on ℚ, strictly increasing in `r`, and fixes `-1`, `0`
and `1`.  It is defined exactly when both variances are nonzero;
`pandas` returns `NaN` (a missing cell) on a zero-variance window, which
the model renders as `none`.  No claim depends on the numeric value
beyond order, sign, definedness and rounding granularity, all of which
the reparameterization preserves. -/
def corrKernel (xs ys : List ℚ) : Option ℚ :=
  let s := covSum xs ys
  let p := varSum xs * varSum ys
  if p = 0 then none else some (s * |s| / p)

/-- Round to the nearest integer, ties to even (Python `round`). -/
def roundHalfEven (q : ℚ) : ℤ :=
  let f := ⌊q⌋
  if q - f < 1 / 2 then f
  else if 1 / 2 < q - f then f + 1
  else if Even f then f else f + 1

/-- Python `round(x, 4)`: round to the nearest multiple of `1/10⁴`. -/
def round4 (q : ℚ) : ℚ := (roundHalfEven (q * 10000) : ℚ) / 10000

/-- One Correlation Record (`stock_utils.py:186-195`): identifier,
display name, the three optional rounded correlations, classification. -/
structure CorrRecord where
  sid : String
  name : String
  corr120 : Option ℚ
  corr20 : Option ℚ
  corr60 : Option ℚ
  group : String
deriving DecidableEq, Repr

/-- The record built for candidate `sid` from the aligned-with-target
series `m` (`stock_utils.py:174-195`): each horizon's Pearson value over
the trailing window when the series is at least that long, rounded to 4
decimal places; `None` otherwise.  The left column of `m` is the target,
the right column the candidate. -/
def mkCorrRecord (sid : String) (m : Joined) : CorrRecord :=
  let tcol := m.map (fun r => r.2.1)
  let ccol := m.map (fun r => r.2.2)
  { sid := sid
    name := get_stock_name sid
    corr120 :=
      if 120 ≤ m.length then (corrKernel tcol ccol).map round4 else none
    corr20 :=
      if 20 ≤ m.length then
        (corrKernel (tailN 20 tcol) (tailN 20 ccol)).map round4
      else none
    corr60 :=
      if 60 ≤ m.length then
        (corrKernel (tailN 60 tcol) (tailN 60 ccol)).map round4
      else none
    group := get_stock_group sid }

/-- Strict precedence of Correlation Records under
`sort_values("120天相關係數", ascending=False)`: a record strictly
precedes another iff its 120-day value is strictly larger, a present
value preceding a missing one (`na_position="last"`, which `pandas`
enforces by segregating `NaN` keys after the sorted present-key rows
regardless of sort kind). -/
def recBefore (a b : CorrRecord) : Bool :=
  match a.corr120, b.corr120 with
  | some x, some y => y < x
  | some _, none => true
  | none, _ => false

/-- The candidate universe after the `limit` cap and exclusion of the
target (`stock_utils.py:144-148`; Python's `if limit:` treats both
`None` and `0` as "no cap"). -/
def corrOthers (target : String) (codes : List String) (lim : Option ℕ) :
    List String :=
  let codes' := match lim with
    | some n => if n = 0 then codes else codes.take n
    | none => codes
  codes'.filter (fun s => s ≠ target)

/-- The fetched mapping used by `calculate_correlations`
(`stock_utils.py:153-154`): one batch over target plus candidates. -/
def corrPrices (resp : RawResp) (target : String) (codes : List String)
    (lim : Option ℕ) : List (String × Series) :=
  fetch_stocks_prices (target :: corrOthers target codes lim) resp

/-- The aligned-with-target series of candidate `sid`
(`stock_utils.py:169`): inner join with the target, restricted to the
most recent 120 observations (`[]` when either series is missing from
the fetch). -/
def corrAligned (resp : RawResp) (target : String) (codes : List String)
    (lim : Option ℕ) (sid : String) : Joined :=
  match assocLookup target (corrPrices resp target codes lim),
      assocLookup sid (corrPrices resp target codes lim) with
  | some t, some c => tailN 120 (mergeJoin t c)
  | _, _ => []

/-- The pre-sort record list (`stock_utils.py:162-195`): one record per
candidate, in universe order, silently skipping candidates whose series
is missing, shorter than 20 observations, or whose aligned series is
shorter than 20 observations. -/
def corrResults (resp : RawResp) (target : String) (codes : List String)
    (lim : Option ℕ) : List CorrRecord :=
  (corrOthers target codes lim).filterMap (fun sid =>
    match assocLookup sid (corrPrices resp target codes lim) with
    | none => none
    | some c =>
      if c.length < 20 then none
      else if (corrAligned resp target codes lim sid).length < 20 then none
      else some (mkCorrRecord sid (corrAligned resp target codes lim sid)))

/-- Attach the 1-based rank column (`df.insert(0, "序號", range(1,
len(df)+1))`). -/
def rankRecords (l : List CorrRecord) : List (ℕ × CorrRecord) :=
  l.enum.map (fun p => (p.1 + 1, p.2))

/-- Outcome of `calculate_correlations`: either a raised exception
(`err`) or the ranked record list (an empty list models the empty
DataFrame returns). -/
inductive CorrOutcome : Type
  | err : CorrOutcome
  | ok (records : List (ℕ × CorrRecord)) : CorrOutcome
deriving DecidableEq, Repr

/-- `calculate_correlations(target_sid, electronics_codes, limit)`
(`stock_utils.py:133-199`), as a function of the raw provider response:
empty universe → empty result; target series missing or shorter than 20
observations → empty result; otherwise build one record per surviving
candidate, sort descending by the 120-day correlation (missing last;
the order among records tied on a present value is the model sort's
choice — the program's default `quicksort` leaves it unspecified and no
theorem depends on it), and attach 1-based ranks.  When *no* candidate
survives, `pd.DataFrame([])` has no columns and
`sort_values("120天相關係數")` raises `KeyError` — the `err`
outcome. -/
def calculate_correlations (resp : RawResp) (target : String)
    (codes : List String) (lim : Option ℕ) : CorrOutcome :=
  if (corrOthers target codes lim).isEmpty then .ok []
  else
    match assocLookup target (corrPrices resp target codes lim) with
    | none => .ok []
    | some t =>
      if t.length < 20 then .ok []
      else
        let results := corrResults resp target codes lim
        if results.isEmpty then .err
        else .ok (rankRecords (stableSort recBefore results))

/-- The tail of `Series.diff()`: successive differences against the
previous value `p`. -/
def diffTail : ℚ → List ℚ → List (Option ℚ)
  | _, [] => []
  | p, y :: ys => some (y - p) :: diffTail y ys

/-- `Series.diff()`: first cell missing, then successive differences. -/
def diffList : List ℚ → List (Option ℚ)
  | [] => []
  | x :: xs => none :: diffTail x xs

/-- `Series.rolling(n).mean()`: at each position, the mean of the
trailing `n` entries once the window is full, missing before that. -/
def rollingMean (n : ℕ) (l : List ℚ) : List (Option ℚ) :=
  (List.range l.length).map (fun i =>
    if n ≤ i + 1 then some (meanQ ((l.take (i + 1)).drop (i + 1 - n)))
    else none)

/-- `datetime.strftime("%m/%d")`: the (month, day) label of a date given
as days since 1970-01-01, via the standard proleptic-Gregorian
civil-from-days computation (the same calendar `datetime` uses). -/
def dateLabel (z : ℕ) : ℕ × ℕ :=
  let z' := z + 719468
  let doe := z' % 146097
  let yoe := (doe - doe / 1460 + doe / 36524 - doe / 146096) / 365
  let doy := doe - (365 * yoe + yoe / 4 - yoe / 100)
  let mp := (5 * doy + 2) / 153
  let d := doy - (153 * mp + 2) / 5 + 1
  let m := if mp < 10 then mp + 3 else mp - 9
  (m, d)

/-- Python `dict` insertion: overwrite the value in place when the key
already exists, append otherwise. -/
def dictInsert {κ ν : Type} [DecidableEq κ] (k : κ) (v : ν) :
    List (κ × ν) → List (κ × ν)
  | [] => [(k, v)]
  | (k', v') :: rest =>
    if k' = k then (k, v) :: rest else (k', v') :: dictInsert k v rest

/-- The Detail Table (`stock_utils.py:248-281`): the row-category labels
and one column of cells per month/day label, in insertion order. -/
structure DetailTable where
  rowLabels : List String
  cols : List ((ℕ × ℕ) × List (Option ℚ))
deriving DecidableEq, Repr

/-- Append the cells of one optional moving-average column to the
per-date cell vectors. -/
def appendMACells (cells : List (ℕ × List (Option ℚ)))
    (ma : Option (List (Option ℚ))) : List (ℕ × List (Option ℚ)) :=
  match ma with
  | none => cells
  | some m => List.zipWith (fun c v => (c.1, c.2 ++ [v])) cells m

/-- The structured (non-absent) result of `get_two_stocks_comparison`:
the two renamed price columns, the truncated joined rows, the derived
ratio/diff/moving-average columns, and the detail table.  The Python
function returns these as the tuple `(price_df, ratio_df, merged,
detail_table)`; `price_df` is `(label₁, label₂, rows)`, `ratio_df` is
`(dates of rows, ratio)`, `merged` carries all columns. -/
structure PairResult where
  label1 : String
  label2 : String
  rows : Joined
  ratio : List ℚ
  diff1 : List (Option ℚ)
  diff2 : List (Option ℚ)
  ma20 : Option (List (Option ℚ))
  ma60 : Option (List (Option ℚ))
  ma120 : Option (List (Option ℚ))
  detail : DetailTable
deriving DecidableEq, Repr

/-- The detail table of the comparison (`stock_utils.py:248-281`):
iterate the merged frame in descending date order, formatting each date
as its month/day label and storing the column of cells in a `dict`
(duplicate labels overwrite in place); rows are the five fixed
categories followed by each moving-average row present in the frame. -/
def mkDetailTable (sid1 sid2 : String) (rows : Joined)
    (ratio : List ℚ) (diff1 diff2 : List (Option ℚ))
    (ma20 ma60 ma120 : Option (List (Option ℚ))) : DetailTable :=
  let base := List.zipWith
    (fun (r : ℕ × ℚ × ℚ) (d : (Option ℚ × Option ℚ) × ℚ) =>
      (r.1, [some r.2.1, some r.2.2, d.1.1, d.1.2, some d.2]))
    rows ((diff1.zip diff2).zip ratio)
  let cells := appendMACells (appendMACells (appendMACells base ma20) ma60)
    ma120
  { rowLabels :=
      ["股價 " ++ get_stock_name sid1, "股價 " ++ get_stock_name sid2,
        "股價變動 " ++ get_stock_name sid1,
        "股價變動 " ++ get_stock_name sid2, "股價相除"]
      ++ (if ma20.isSome then ["20日均比"] else [])
      ++ (if ma60.isSome then ["60日均比"] else [])
      ++ (if ma120.isSome then ["120日均比"] else [])
    cols := cells.reverse.foldl
      (fun acc c => dictInsert (dateLabel c.1) c.2 acc) [] }

/-- The inner-joined pair series of the comparison
(`stock_utils.py:229`), before truncation (`[]` when either identifier
is missing from the fetch). -/
def comparisonJoined (resp : RawResp) (sid1 sid2 : String) : Joined :=
  match assocLookup sid1 (fetch_stocks_prices [sid1, sid2] resp),
      assocLookup sid2 (fetch_stocks_prices [sid1, sid2] resp) with
  | some a, some b => mergeJoin a b
  | _, _ => []

/-- The structured result built from the truncated joined frame
(`stock_utils.py:235-281`): derive the ratio, per-leg diffs, the
20/60/120-day moving averages of the ratio for each window the frame
can fill, and the detail table. -/
def mkPairResult (sid1 sid2 : String) (merged : Joined) : PairResult :=
  let ratio := merged.map (fun r => r.2.1 / r.2.2)
  let diff1 := diffList (merged.map (fun r => r.2.1))
  let diff2 := diffList (merged.map (fun r => r.2.2))
  let ma20 := if 20 ≤ merged.length then some (rollingMean 20 ratio)
    else none
  let ma60 := if 60 ≤ merged.length then some (rollingMean 60 ratio)
    else none
  let ma120 := if 120 ≤ merged.length then some (rollingMean 120 ratio)
    else none
  { label1 := sid1 ++ "_" ++ get_stock_name sid1
    label2 := sid2 ++ "_" ++ get_stock_name sid2
    rows := merged
    ratio := ratio
    diff1 := diff1
    diff2 := diff2
    ma20 := ma20
    ma60 := ma60
    ma120 := ma120
    detail := mkDetailTable sid1 sid2 merged ratio diff1 diff2 ma20
      ma60 ma120 }

/-- `get_two_stocks_comparison(sid1, sid2, days)`
(`stock_utils.py:202-283`), as a function of the provider (`provider n`
is the raw response to a batch with an `n`-calendar-day lookback): fetch
both series with lookback `max(180, days + 60)`; all-absent (`none`)
when either series is missing; inner join by date, truncate to the most
recent `days` rows (the merge inputs are already date-sorted, so the
explicit re-sort is the identity); all-absent when the truncated frame
is empty or shorter than 10 rows; otherwise the structured
`mkPairResult`. -/
def get_two_stocks_comparison (provider : ℕ → RawResp)
    (sid1 sid2 : String) (days : ℕ) : Option PairResult :=
  let days_back := max 180 (days + 60)
  let prices := fetch_stocks_prices [sid1, sid2] (provider days_back)
  match assocLookup sid1 prices, assocLookup sid2 prices with
  | some df1, some df2 =>
    let merged := tailN days (mergeJoin df1 df2)
    if merged.isEmpty ∨ merged.length < 10 then none
    else some (mkPairResult sid1 sid2 merged)
  | _, _ => none

/-- Projection of a `CorrOutcome` to its record list (`[]` on the
exception outcome); used to name concrete outputs in closed
statements. -/
def okRecords : CorrOutcome → List (ℕ × CorrRecord)
  | .err => []
  | .ok l => l

/-- First record of a `CorrOutcome`, rank stripped. -/
def firstRec : CorrOutcome → Option CorrRecord
  | .ok ((_, r) :: _) => some r
  | _ => none

/-- The per-identifier extraction the multi-ticker branch of
`fetch_stocks_prices` performs (auxiliary, for stating that lookups into
the fetched mapping are independent per identifier). -/
def mExtract (resp : RawResp) (s : String) : Option Series :=
  match resp with
  | .fail => none
  | .table index cols =>
    if index.isEmpty ∨ cols.isEmpty then none
    else (assocLookup (to_yf_ticker s) cols).map
      (fun c => normalizeSeries index c)

/-- A placeholder `PairResult` for `Option.getD` in closed statements. -/
def emptyPair : PairResult :=
  { label1 := "", label2 := "", rows := [], ratio := [], diff1 := []
    diff2 := [], ma20 := none, ma60 := none, ma120 := none
    detail := { rowLabels := [], cols := [] } }

/-! ### Concrete provider responses used in closed statements -/

/-- A close column of `n` cells all equal to `v`. -/
def constCol (n : ℕ) (v : ℚ) : List (Option ℚ) :=
  (List.range n).map (fun _ => some v)

/-- A close column `1, 2, …, n`. -/
def rampCol (n : ℕ) : List (Option ℚ) :=
  (List.range n).map (fun i => some ((i : ℚ) + 1))

/-- A close column `n, n-1, …, 1`. -/
def revRampCol (n : ℕ) : List (Option ℚ) :=
  (List.range n).map (fun i => some ((n : ℚ) - i))

/-- Response with a 20-observation target `"T"`, a perfectly
correlated candidate `"A"` and a perfectly anti-correlated candidate
`"B"`. -/
def rampResp : RawResp :=
  .table (List.range 20)
    [("T.TW", rampCol 20), ("A.TW", rampCol 20), ("B.TW", revRampCol 20)]

/-- Response with a 20-observation target `"T"` and a constant
(zero-variance) 20-observation candidate `"A"`. -/
def flatCandResp : RawResp :=
  .table (List.range 20) [("T.TW", rampCol 20), ("A.TW", constCol 20 5)]

/-- Response with a 20-observation target `"T"` and no column for any
candidate. -/
def onlyTargetResp : RawResp :=
  .table (List.range 20) [("T.TW", rampCol 20)]

/-- Response whose target `"T"` has only 10 observations (below the
20-observation minimum). -/
def shortTargetResp : RawResp :=
  .table (List.range 10) [("T.TW", rampCol 10), ("A.TW", rampCol 10)]

/-- Provider with 125 shared observations for `"A"` and `"B"`. -/
def longPairProvider : ℕ → RawResp := fun _ =>
  .table (List.range 125)
    [("A.TW", constCol 125 2), ("B.TW", constCol 125 1)]

/-- Provider with only 9 shared observations for `"X"` and `"Y"`. -/
def shortPairProvider : ℕ → RawResp := fun _ =>
  .table (List.range 9) [("X.TW", constCol 9 2), ("Y.TW", constCol 9 1)]

/-- Ten trading dates spanning slightly more than one calendar year:
day 0 (1970-01-01) and day 365 (1971-01-01) carry the same month/day
label. -/
def yearSpanDates : List ℕ :=
  [0, 40, 80, 120, 160, 200, 240, 280, 320, 365]

/-- Provider with 10 shared observations for `"A"` and `"B"` spanning
just over a year. -/
def yearSpanProvider : ℕ → RawResp := fun _ =>
  .table yearSpanDates [("A.TW", constCol 10 2), ("B.TW", constCol 10 1)]

/-- Provider with 10 shared observations for `"A"` and `"B"` within one
month (all month/day labels distinct). -/
def shortSpanProvider : ℕ → RawResp := fun _ =>
  .table (List.range 10) [("A.TW", constCol 10 2), ("B.TW", constCol 10 1)]

/-! ### List-level lemmas: `tail`, the stable sort, deduplication -/

theorem tailN_length {α : Type} (n : ℕ) (l : List α) :
    (tailN n l).length = min n l.length := by
  simp only [tailN, List.length_drop]
  omega

theorem tailN_map {α β : Type} (f : α → β) (n : ℕ) (l : List α) :
    tailN n (l.map f) = (tailN n l).map f := by
  simp [tailN, List.map_drop]

theorem stableInsert_perm {α : Type} (lt : α → α → Bool) (x : α)
    (l : List α) : (stableInsert lt x l).Perm (x :: l) := by
  induction l with
  | nil => simp [stableInsert]
  | cons y ys ih =>
    by_cases h : lt y x
    · simpa [stableInsert, h] using
        ((ih.cons y).trans (List.Perm.swap x y ys))
    · simp [stableInsert, h]

theorem stableSort_perm {α : Type} (lt : α → α → Bool) (l : List α) :
    (stableSort lt l).Perm l := by
  induction l with
  | nil => simp [stableSort]
  | cons x xs ih =>
    exact (stableInsert_perm lt x (stableSort lt xs)).trans (ih.cons x)

theorem pairwise_stableInsert {α : Type} (lt : α → α → Bool)
    (hA : ∀ a b, lt a b = true → lt b a = false)
    (hT : ∀ a b c, lt b a = false → lt c b = false → lt c a = false)
    (x : α) (l : List α) (hl : l.Pairwise (fun a b => lt b a = false)) :
    (stableInsert lt x l).Pairwise (fun a b => lt b a = false) := by
  induction l with
  | nil => simp [stableInsert]
  | cons y ys ih =>
    rcases List.pairwise_cons.mp hl with ⟨hy, hys⟩
    by_cases h : lt y x = true
    · rw [stableInsert, if_pos h]
      refine List.pairwise_cons.mpr ⟨?_, ih hys⟩
      intro z hz
      rcases List.mem_cons.mp ((stableInsert_perm lt x ys).mem_iff.mp hz)
        with hzx | hzy
      · rw [hzx]; exact hA y x h
      · exact hy z hzy
    · have hyx : lt y x = false := by
        cases hxy : lt y x with
        | false => rfl
        | true => exact absurd hxy h
      rw [stableInsert, if_neg h]
      refine List.pairwise_cons.mpr ⟨?_, hl⟩
      intro z hz
      rcases List.mem_cons.mp hz with hzy | hzys
      · subst hzy; exact hyx
      · exact hT x y z hyx (hy z hzys)

theorem pairwise_stableSort {α : Type} (lt : α → α → Bool)
    (hA : ∀ a b, lt a b = true → lt b a = false)
    (hT : ∀ a b c, lt b a = false → lt c b = false → lt c a = false)
    (l : List α) :
    (stableSort lt l).Pairwise (fun a b => lt b a = false) := by
  induction l with
  | nil => simp [stableSort]
  | cons x xs ih => exact pairwise_stableInsert lt hA hT x _ ih

theorem mem_dedupSeen {α κ : Type} [DecidableEq κ] (key : α → κ) :
    ∀ (l : List α) (seen : List κ) (x : α),
      x ∈ dedupSeen key seen l → x ∈ l := by
  intro l
  induction l with
  | nil => intro seen x hx; exact absurd hx (by simp [dedupSeen])
  | cons y ys ih =>
    intro seen x hx
    rw [dedupSeen] at hx
    by_cases hy : key y ∈ seen
    · rw [if_pos hy] at hx
      exact List.mem_cons_of_mem y (ih seen x hx)
    · rw [if_neg hy] at hx
      rcases List.mem_cons.mp hx with hxy | hxr
      · simp [hxy]
      · exact List.mem_cons_of_mem y (ih (key y :: seen) x hxr)

theorem mem_dedupByKey {α κ : Type} [DecidableEq κ] (key : α → κ)
    (l : List α) : ∀ x ∈ dedupByKey key l, x ∈ l := by
  intro x hx
  exact mem_dedupSeen key l [] x hx

theorem dedupSeen_key_not_mem {α κ : Type} [DecidableEq κ] (key : α → κ) :
    ∀ (l : List α) (seen : List κ) (z : α),
      z ∈ dedupSeen key seen l → key z ∉ seen := by
  intro l
  induction l with
  | nil => intro seen z hz; exact absurd hz (by simp [dedupSeen])
  | cons y ys ih =>
    intro seen z hz
    rw [dedupSeen] at hz
    by_cases hy : key y ∈ seen
    · rw [if_pos hy] at hz
      exact ih seen z hz
    · rw [if_neg hy] at hz
      rcases List.mem_cons.mp hz with hzy | hzr
      · rw [hzy]
        exact hy
      · intro hmem
        exact ih (key y :: seen) z hzr (List.mem_cons_of_mem _ hmem)

theorem nodup_map_dedupSeen {α κ : Type} [DecidableEq κ] (key : α → κ) :
    ∀ (l : List α) (seen : List κ),
      ((dedupSeen key seen l).map key).Nodup := by
  intro l
  induction l with
  | nil => intro seen; simp [dedupSeen]
  | cons y ys ih =>
    intro seen
    rw [dedupSeen]
    by_cases hy : key y ∈ seen
    · rw [if_pos hy]
      exact ih seen
    · rw [if_neg hy]
      rw [List.map_cons, List.nodup_cons]
      refine ⟨?_, ih (key y :: seen)⟩
      intro hmem
      rcases List.mem_map.mp hmem with ⟨z, hz, hkey⟩
      exact dedupSeen_key_not_mem key ys (key y :: seen) z hz
        (by rw [hkey]; exact List.mem_cons_self _ _)

theorem nodup_map_dedupByKey {α κ : Type} [DecidableEq κ] (key : α → κ)
    (l : List α) : ((dedupByKey key l).map key).Nodup :=
  nodup_map_dedupSeen key l []

/-! ### Lemmas on the inner merge join -/

theorem mergeJoin_nil_left (b : Series) : mergeJoin [] b = [] := rfl

theorem mergeJoin_nil_right (a : Series) : mergeJoin a [] = [] := by
  cases a with
  | nil => rfl
  | cons x t => cases x; rfl

theorem mergeJoin_cons_cons (d₁ : ℕ) (p₁ : ℚ) (t₁ : Series) (d₂ : ℕ)
    (p₂ : ℚ) (t₂ : Series) :
    mergeJoin ((d₁, p₁) :: t₁) ((d₂, p₂) :: t₂)
      = if d₁ < d₂ then mergeJoin t₁ ((d₂, p₂) :: t₂)
        else if d₂ < d₁ then mergeJoin ((d₁, p₁) :: t₁) t₂
        else (d₁, p₁, p₂) :: mergeJoin t₁ t₂ := rfl

theorem mergeJoin_swap : ∀ a b : Series,
    mergeJoin b a = (mergeJoin a b).map (fun r => (r.1, r.2.2, r.2.1)) := by
  intro a
  induction a with
  | nil =>
    intro b
    rw [mergeJoin_nil_right, mergeJoin_nil_left]
    rfl
  | cons x t₁ ih =>
    obtain ⟨d₁, p₁⟩ := x
    intro b
    induction b with
    | nil =>
      rw [mergeJoin_nil_right, mergeJoin_nil_left]
      rfl
    | cons y t₂ ihb =>
      obtain ⟨d₂, p₂⟩ := y
      rcases Nat.lt_trichotomy d₁ d₂ with hlt | heq | hgt
      · rw [mergeJoin_cons_cons d₂ p₂ t₂ d₁ p₁ t₁,
          if_neg (by omega : ¬ d₂ < d₁), if_pos hlt,
          mergeJoin_cons_cons d₁ p₁ t₁ d₂ p₂ t₂, if_pos hlt]
        exact ih ((d₂, p₂) :: t₂)
      · rw [mergeJoin_cons_cons d₂ p₂ t₂ d₁ p₁ t₁,
          if_neg (by omega : ¬ d₂ < d₁), if_neg (by omega : ¬ d₁ < d₂),
          mergeJoin_cons_cons d₁ p₁ t₁ d₂ p₂ t₂,
          if_neg (by omega : ¬ d₁ < d₂), if_neg (by omega : ¬ d₂ < d₁),
          List.map_cons, ih t₂, heq]
      · rw [mergeJoin_cons_cons d₂ p₂ t₂ d₁ p₁ t₁, if_pos hgt,
          mergeJoin_cons_cons d₁ p₁ t₁ d₂ p₂ t₂,
          if_neg (by omega : ¬ d₁ < d₂), if_pos hgt]
        exact ihb

theorem mergeJoin_dates_sublist : ∀ a b : Series,
    ((mergeJoin a b).map (fun r => r.1)).Sublist (a.map (fun r => r.1)) := by
  intro a
  induction a with
  | nil =>
    intro b
    rw [mergeJoin_nil_left]
    exact List.Sublist.refl _
  | cons x t₁ ih =>
    obtain ⟨d₁, p₁⟩ := x
    intro b
    induction b with
    | nil =>
      rw [mergeJoin_nil_right]
      exact List.nil_sublist _
    | cons y t₂ ihb =>
      obtain ⟨d₂, p₂⟩ := y
      rw [mergeJoin_cons_cons d₁ p₁ t₁ d₂ p₂ t₂]
      rcases Nat.lt_trichotomy d₁ d₂ with hlt | heq | hgt
      · rw [if_pos hlt, List.map_cons]
        exact (ih ((d₂, p₂) :: t₂)).cons d₁
      · rw [if_neg (by omega : ¬ d₁ < d₂), if_neg (by omega : ¬ d₂ < d₁),
          List.map_cons, List.map_cons]
        exact (ih t₂).cons₂ d₁
      · rw [if_neg (by omega : ¬ d₁ < d₂), if_pos hgt]
        exact ihb

/-! ### Lemmas on derived columns and the detail-table dictionary -/

theorem diffTail_length (p : ℚ) (l : List ℚ) :
    (diffTail p l).length = l.length := by
  induction l generalizing p with
  | nil => rfl
  | cons y ys ih => simp [diffTail, ih]

theorem diffList_length (l : List ℚ) : (diffList l).length = l.length := by
  cases l with
  | nil => rfl
  | cons x xs => simp [diffList, diffTail_length]

theorem rollingMean_length (n : ℕ) (l : List ℚ) :
    (rollingMean n l).length = l.length := by
  simp [rollingMean]

theorem dictInsert_of_not_mem {κ ν : Type} [DecidableEq κ] (k : κ) (v : ν)
    (l : List (κ × ν)) (h : ∀ p ∈ l, p.1 ≠ k) :
    dictInsert k v l = l ++ [(k, v)] := by
  induction l with
  | nil => rfl
  | cons q rest ih =>
    have hq : q.1 ≠ k := h q (List.mem_cons_self q rest)
    cases q with
    | mk k' v' =>
      rw [dictInsert, if_neg hq, ih (fun p hp => h p (List.mem_cons_of_mem _ hp))]
      rfl

theorem foldl_dictInsert_nodup (l : List (ℕ × List (Option ℚ)))
    (acc : List ((ℕ × ℕ) × List (Option ℚ)))
    (hn : (l.map (fun c => dateLabel c.1)).Nodup)
    (hd : ∀ c ∈ l, ∀ p ∈ acc, p.1 ≠ dateLabel c.1) :
    l.foldl (fun acc c => dictInsert (dateLabel c.1) c.2 acc) acc
      = acc ++ l.map (fun c => (dateLabel c.1, c.2)) := by
  induction l generalizing acc with
  | nil => simp
  | cons c cs ih =>
    rw [List.foldl_cons,
      dictInsert_of_not_mem _ _ acc (hd c (List.mem_cons_self c cs))]
    rw [List.map_cons, List.nodup_cons] at hn
    rw [ih (acc ++ [(dateLabel c.1, c.2)]) hn.2 ?_]
    · simp
    · intro c' hc' p hp
      rcases List.mem_append.mp hp with hpa | hpc
      · exact hd c' (List.mem_cons_of_mem c hc') p hpa
      · have hp1 : p.1 = dateLabel c.1 := by
          rcases List.mem_singleton.mp hpc with rfl
          rfl
        rw [hp1]
        intro hlab
        exact hn.1 (List.mem_map.mpr ⟨c', hc', hlab.symm⟩)

/-! ### Lemmas on the fetched series -/

theorem assocLookup_eq_none {β : Type} (k : String)
    (l : List (String × β)) (h : ∀ p ∈ l, p.1 ≠ k) :
    assocLookup k l = none := by
  induction l with
  | nil => rfl
  | cons q rest ih =>
    cases q with
    | mk k' v' =>
      rw [assocLookup, if_neg (h (k', v') (List.mem_cons_self _ _))]
      exact ih (fun p hp => h p (List.mem_cons_of_mem _ hp))

theorem assocLookup_some_mem {β : Type} (k : String)
    (l : List (String × β)) (v : β) (h : assocLookup k l = some v) :
    (k, v) ∈ l := by
  induction l with
  | nil => exact absurd h (by simp [assocLookup])
  | cons q rest ih =>
    cases q with
    | mk k' v' =>
      rw [assocLookup] at h
      by_cases he : k' = k
      · rw [if_pos he] at h
        rcases Option.some_inj.mp h with rfl
        rw [he]
        exact List.mem_cons_self _ _
      · rw [if_neg he] at h
        exact List.mem_cons_of_mem _ (ih h)

theorem fetch_single_unfold (s' : String) (index : List ℕ)
    (cols : List (String × List (Option ℚ))) :
    fetch_stocks_prices [s'] (.table index cols)
      = if index.isEmpty ∨ cols.isEmpty then []
        else
          match assocLookup "Close" cols with
          | none => []
          | some c => [(s', normalizeSeries index c)] := rfl

theorem fetch_multi_unfold (s₁ s₂ : String) (rest : List String)
    (index : List ℕ) (cols : List (String × List (Option ℚ))) :
    fetch_stocks_prices (s₁ :: s₂ :: rest) (.table index cols)
      = if index.isEmpty ∨ cols.isEmpty then []
        else
          (dedupByKey id (s₁ :: s₂ :: rest)).filterMap
            (fun s => (assocLookup (to_yf_ticker s) cols).map
              (fun c => (s, normalizeSeries index c))) := rfl

theorem fetched_series_shape (sids : List String) (resp : RawResp)
    (s : String) (df : Series)
    (h : assocLookup s (fetch_stocks_prices sids resp) = some df) :
    ∃ index col, df = normalizeSeries index col := by
  match sids with
  | [] => exact absurd h (by simp [fetch_stocks_prices, assocLookup])
  | [s'] =>
    cases resp with
    | fail => exact absurd h (by simp [fetch_stocks_prices, assocLookup])
    | table index cols =>
      rw [fetch_single_unfold] at h
      by_cases hidx : index.isEmpty ∨ cols.isEmpty
      · rw [if_pos hidx] at h
        exact absurd h (by simp [assocLookup])
      · rw [if_neg hidx] at h
        rcases hc : assocLookup "Close" cols with _ | c
        · rw [hc] at h
          exact absurd h (by simp [assocLookup])
        · rw [hc] at h
          rw [assocLookup] at h
          by_cases he : s' = s
          · rw [if_pos he] at h
            exact ⟨index, c, (Option.some_inj.mp h).symm⟩
          · rw [if_neg he] at h
            exact absurd h (by simp [assocLookup])
  | s₁ :: s₂ :: rest =>
    cases resp with
    | fail => exact absurd h (by simp [fetch_stocks_prices, assocLookup])
    | table index cols =>
      rw [fetch_multi_unfold] at h
      by_cases hidx : index.isEmpty ∨ cols.isEmpty
      · rw [if_pos hidx] at h
        exact absurd h (by simp [assocLookup])
      · rw [if_neg hidx] at h
        have hmem := assocLookup_some_mem s _ df h
        rcases List.mem_filterMap.mp hmem with ⟨x, _, hx⟩
        rcases ho : assocLookup (to_yf_ticker x) cols with _ | c
        · rw [ho] at hx
          exact absurd hx (by simp)
        · rw [ho] at hx
          simp only [Option.map_some', Option.some_inj] at hx
          exact ⟨index, c, congrArg Prod.snd hx.symm⟩

theorem lookup_fetch_multi_absent (s₁ s₂ : String) (rest : List String)
    (index : List ℕ) (cols : List (String × List (Option ℚ)))
    (sid : String)
    (hcol : assocLookup (to_yf_ticker sid) cols = none) :
    assocLookup sid
      (fetch_stocks_prices (s₁ :: s₂ :: rest) (.table index cols))
      = none := by
  rw [fetch_multi_unfold]
  by_cases hidx : index.isEmpty ∨ cols.isEmpty
  · rw [if_pos hidx]
    rfl
  · rw [if_neg hidx]
    refine assocLookup_eq_none sid _ ?_
    intro p hp
    rcases List.mem_filterMap.mp hp with ⟨x, _, hx⟩
    rcases ho : assocLookup (to_yf_ticker x) cols with _ | c
    · rw [ho] at hx
      exact absurd hx (by simp)
    · rw [ho] at hx
      simp only [Option.map_some', Option.some_inj] at hx
      rw [← hx]
      intro hxs
      have hxsid : x = sid := hxs
      rw [hxsid] at ho
      rw [hcol] at ho
      exact absurd ho (by simp)

theorem lookup_fetch_pair (s₁ s₂ : String) (h : s₁ ≠ s₂) (resp : RawResp) :
    assocLookup s₁ (fetch_stocks_prices [s₁, s₂] resp) = mExtract resp s₁ ∧
    assocLookup s₂ (fetch_stocks_prices [s₁, s₂] resp) = mExtract resp s₂ := by
  cases resp with
  | fail => exact ⟨rfl, rfl⟩
  | table index cols =>
    rw [fetch_multi_unfold]
    by_cases hidx : index.isEmpty ∨ cols.isEmpty
    · have hidx2 : index = [] ∨ cols = [] := by simpa using hidx
      rw [if_pos hidx]
      simp [mExtract, hidx2, assocLookup]
    · have hidx2 : ¬ index = [] ∧ ¬ cols = [] := by
        simpa [not_or] using hidx
      rw [if_neg hidx]
      have hdd : dedupByKey id ([s₁, s₂] : List String) = [s₁, s₂] := by
        simp [dedupByKey, dedupSeen, Ne.symm h]
      rw [hdd]
      rcases h1 : assocLookup (to_yf_ticker s₁) cols with _ | c₁ <;>
        rcases h2 : assocLookup (to_yf_ticker s₂) cols with _ | c₂ <;>
          simp [List.filterMap, h1, h2, assocLookup, mExtract, hidx2.1,
            hidx2.2, h, Ne.symm h]

/-! ### Sortedness of the normalized and joined series -/

theorem dateLT_asymm (a b : ℕ × ℚ) (hab : dateLT a b = true) :
    dateLT b a = false := by
  simp only [dateLT, decide_eq_true_eq] at hab
  simp only [dateLT, decide_eq_false_iff_not]
  omega

theorem dateLT_negtrans (a b c : ℕ × ℚ) (hba : dateLT b a = false)
    (hcb : dateLT c b = false) : dateLT c a = false := by
  simp only [dateLT, decide_eq_false_iff_not] at hba hcb ⊢
  omega

theorem normalizeSeries_dates_sorted (index : List ℕ)
    (col : List (Option ℚ)) :
    ((normalizeSeries index col).map (fun r => r.1)).Pairwise (· < ·) := by
  rw [normalizeSeries]
  set l1 := dedupByKey Prod.fst
    ((index.zip col).filterMap (fun dc => dc.2.map (fun v => (dc.1, v))))
    with hl1
  have hsorted := pairwise_stableSort dateLT dateLT_asymm dateLT_negtrans l1
  have hperm : (stableSort dateLT l1).Perm l1 := stableSort_perm _ _
  have hnodup : ((stableSort dateLT l1).map Prod.fst).Nodup :=
    ((hperm.map Prod.fst).nodup_iff).mpr (nodup_map_dedupByKey _ _)
  have hle : (stableSort dateLT l1).Pairwise (fun a b => a.1 ≤ b.1) :=
    hsorted.imp (by
      intro a b hab
      simp only [dateLT, decide_eq_false_iff_not] at hab
      omega)
  have hne : (stableSort dateLT l1).Pairwise (fun a b => a.1 ≠ b.1) :=
    List.pairwise_map.mp hnodup
  refine List.pairwise_map.mpr ?_
  exact (hle.and hne).imp (fun hx => lt_of_le_of_ne hx.1 hx.2)

theorem joined_dates_sorted (index : List ℕ) (col : List (Option ℚ))
    (b : Series) (days : ℕ) :
    ((tailN days (mergeJoin (normalizeSeries index col) b)).map
      (fun r => r.1)).Pairwise (· < ·) := by
  have h1 := normalizeSeries_dates_sorted index col
  have h2 : ((mergeJoin (normalizeSeries index col) b).map
      (fun r => r.1)).Pairwise (· < ·) :=
    List.Pairwise.sublist (mergeJoin_dates_sublist _ b) h1
  rw [← tailN_map]
  exact List.Pairwise.sublist (List.drop_sublist _ _) h2

/-! ### Lemmas on the correlation-ranking pipeline -/

theorem rankRecords_map_snd (l : List CorrRecord) :
    (rankRecords l).map Prod.snd = l := by
  rw [rankRecords, List.map_map]
  exact List.enum_map_snd l

theorem rankRecords_map_fst (l : List CorrRecord) :
    (rankRecords l).map Prod.fst
      = (List.range l.length).map (fun i => i + 1) := by
  rw [rankRecords, List.map_map, ← List.enum_map_fst l, List.map_map]
  rfl

theorem rankRecords_length (l : List CorrRecord) :
    (rankRecords l).length = l.length := by
  simp [rankRecords]

theorem mkCorrRecord_sid (sid : String) (m : Joined) :
    (mkCorrRecord sid m).sid = sid := rfl

theorem mkCorrRecord_corr20 (sid : String) (m : Joined) :
    (mkCorrRecord sid m).corr20
      = if 20 ≤ m.length
        then (corrKernel (tailN 20 (m.map (fun r => r.2.1)))
          (tailN 20 (m.map (fun r => r.2.2)))).map round4
        else none := rfl

theorem mkCorrRecord_corr60 (sid : String) (m : Joined) :
    (mkCorrRecord sid m).corr60
      = if 60 ≤ m.length
        then (corrKernel (tailN 60 (m.map (fun r => r.2.1)))
          (tailN 60 (m.map (fun r => r.2.2)))).map round4
        else none := rfl

theorem mkCorrRecord_corr120 (sid : String) (m : Joined) :
    (mkCorrRecord sid m).corr120
      = if 120 ≤ m.length
        then (corrKernel (m.map (fun r => r.2.1))
          (m.map (fun r => r.2.2))).map round4
        else none := rfl

theorem mem_corrResults (resp : RawResp) (target : String)
    (codes : List String) (lim : Option ℕ) (r : CorrRecord)
    (hr : r ∈ corrResults resp target codes lim) :
    ∃ sid, sid ∈ corrOthers target codes lim ∧
      r = mkCorrRecord sid (corrAligned resp target codes lim sid) ∧
      20 ≤ (corrAligned resp target codes lim sid).length := by
  rcases List.mem_filterMap.mp hr with ⟨sid, hsid, hf⟩
  rcases hc : assocLookup sid (corrPrices resp target codes lim) with _ | c
  · rw [hc] at hf
    exact absurd hf (by simp)
  · rw [hc] at hf
    dsimp only at hf
    by_cases hlen : c.length < 20
    · rw [if_pos hlen] at hf
      exact absurd hf (by simp)
    · rw [if_neg hlen] at hf
      by_cases hm : (corrAligned resp target codes lim sid).length < 20
      · rw [if_pos hm] at hf
        exact absurd hf (by simp)
      · rw [if_neg hm] at hf
        exact ⟨sid, hsid, (Option.some_inj.mp hf).symm, by omega⟩

theorem calc_ok_shape (resp : RawResp) (target : String)
    (codes : List String) (lim : Option ℕ)
    (recs : List (ℕ × CorrRecord))
    (h : calculate_correlations resp target codes lim = .ok recs) :
    recs = [] ∨
      recs = rankRecords
        (stableSort recBefore (corrResults resp target codes lim)) := by
  rw [calculate_correlations] at h
  by_cases h0 : (corrOthers target codes lim).isEmpty
  · rw [if_pos h0] at h
    cases h
    exact Or.inl rfl
  · rw [if_neg h0] at h
    rcases ht : assocLookup target (corrPrices resp target codes lim)
      with _ | t
    · rw [ht] at h
      cases h
      exact Or.inl rfl
    · rw [ht] at h
      dsimp only at h
      by_cases htl : t.length < 20
      · rw [if_pos htl] at h
        cases h
        exact Or.inl rfl
      · rw [if_neg htl] at h
        by_cases hres : (corrResults resp target codes lim).isEmpty
        · rw [if_pos hres] at h
          cases h
        · rw [if_neg hres] at h
          cases h
          exact Or.inr rfl

theorem mem_ok_origin (resp : RawResp) (target : String)
    (codes : List String) (lim : Option ℕ)
    (recs : List (ℕ × CorrRecord))
    (h : calculate_correlations resp target codes lim = .ok recs)
    (p : ℕ × CorrRecord) (hp : p ∈ recs) :
    ∃ sid, sid ∈ corrOthers target codes lim ∧
      p.2 = mkCorrRecord sid (corrAligned resp target codes lim sid) ∧
      20 ≤ (corrAligned resp target codes lim sid).length := by
  rcases calc_ok_shape resp target codes lim recs h with hnil | hshape
  · rw [hnil] at hp
    exact absurd hp (by simp)
  · rw [hshape] at hp
    have hsnd : p.2 ∈ stableSort recBefore (corrResults resp target codes lim) := by
      have := List.mem_map_of_mem Prod.snd hp
      rwa [rankRecords_map_snd] at this
    have hres : p.2 ∈ corrResults resp target codes lim :=
      (stableSort_perm recBefore _).mem_iff.mp hsnd
    exact mem_corrResults resp target codes lim p.2 hres

/-! ### Lemmas on the record order and the statistics kernel -/

theorem recBefore_asymm (a b : CorrRecord) (h : recBefore a b = true) :
    recBefore b a = false := by
  rcases ha : a.corr120 with _ | x
  · rw [recBefore, ha] at h
    exact absurd h (by simp)
  · rcases hb : b.corr120 with _ | y
    · simp [recBefore, hb]
    · rw [recBefore, ha, hb] at h
      simp only [decide_eq_true_eq] at h
      rw [recBefore, hb, ha]
      simp only [decide_eq_false_iff_not]
      exact not_lt_of_gt h

theorem recBefore_negtrans (a b c : CorrRecord)
    (hba : recBefore b a = false) (hcb : recBefore c b = false) :
    recBefore c a = false := by
  rcases hc : c.corr120 with _ | cv
  · simp [recBefore, hc]
  · rcases ha : a.corr120 with _ | av
    · rcases hb : b.corr120 with _ | bv
      · rw [recBefore, hc, hb] at hcb
        exact absurd hcb (by simp)
      · rw [recBefore, hb, ha] at hba
        exact absurd hba (by simp)
    · rcases hb : b.corr120 with _ | bv
      · rw [recBefore, hc, hb] at hcb
        exact absurd hcb (by simp)
      · rw [recBefore, hb, ha] at hba
        rw [recBefore, hc, hb] at hcb
        rw [recBefore, hc, ha]
        simp only [decide_eq_false_iff_not] at hba hcb ⊢
        intro hlt
        exact hba (lt_of_lt_of_le hlt (le_of_not_lt hcb))

theorem corrKernel_isSome (xs ys : List ℚ) :
    (corrKernel xs ys).isSome = true ↔ varSum xs ≠ 0 ∧ varSum ys ≠ 0 := by
  rw [corrKernel]
  by_cases h : varSum xs * varSum ys = 0
  · rw [if_pos h]
    constructor
    · intro hs
      exact absurd hs (by simp)
    · rintro ⟨hx, hy⟩
      rcases mul_eq_zero.mp h with h0 | h0
      · exact absurd h0 hx
      · exact absurd h0 hy
  · rw [if_neg h]
    simp only [Option.isSome_some, true_iff]
    exact mul_ne_zero_iff.mp h

theorem round4_den (q : ℚ) : (round4 q * 10000).den = 1 := by
  rw [round4, div_mul_cancel₀ _ (by norm_num : (10000 : ℚ) ≠ 0)]
  exact Rat.den_intCast _

theorem zipWith_fst {α β γ δ : Type} (k : α → δ) (g : α → β → γ) :
    ∀ (l₁ : List α) (l₂ : List β), l₂.length = l₁.length →
      (List.zipWith (fun a b => (k a, g a b)) l₁ l₂).map Prod.fst
        = l₁.map k := by
  intro l₁
  induction l₁ with
  | nil => intro l₂ _; rfl
  | cons x xs ih =>
    intro l₂ hlen
    cases l₂ with
    | nil => exact absurd hlen (by simp)
    | cons y ys =>
      simp only [List.zipWith_cons_cons, List.map_cons]
      rw [ih ys (by simpa using hlen)]

theorem zipWith_pair_length {α β γ δ : Type} (k : α → δ) (g : α → β → γ) :
    ∀ (l₁ : List α) (l₂ : List β), l₂.length = l₁.length →
      (List.zipWith (fun a b => (k a, g a b)) l₁ l₂).length = l₁.length := by
  intro l₁ l₂ h
  rw [List.length_zipWith, h, Nat.min_self]

/-! ### Lemmas on the pair comparison -/

theorem mkPairResult_fields (s₁ s₂ : String) (m : Joined) :
    (mkPairResult s₁ s₂ m).rows = m ∧
    (mkPairResult s₁ s₂ m).ratio = m.map (fun r => r.2.1 / r.2.2) ∧
    (mkPairResult s₁ s₂ m).label1 = s₁ ++ "_" ++ get_stock_name s₁ ∧
    (mkPairResult s₁ s₂ m).label2 = s₂ ++ "_" ++ get_stock_name s₂ ∧
    (mkPairResult s₁ s₂ m).ma20
      = (if 20 ≤ m.length
          then some (rollingMean 20 (m.map (fun r => r.2.1 / r.2.2)))
          else none) ∧
    (mkPairResult s₁ s₂ m).ma60
      = (if 60 ≤ m.length
          then some (rollingMean 60 (m.map (fun r => r.2.1 / r.2.2)))
          else none) ∧
    (mkPairResult s₁ s₂ m).ma120
      = (if 120 ≤ m.length
          then some (rollingMean 120 (m.map (fun r => r.2.1 / r.2.2)))
          else none) :=
  ⟨rfl, rfl, rfl, rfl, rfl, rfl, rfl⟩

theorem comparison_some (provider : ℕ → RawResp) (s₁ s₂ : String)
    (days : ℕ) (out : PairResult)
    (h : get_two_stocks_comparison provider s₁ s₂ days = some out) :
    ∃ df₁ df₂,
      assocLookup s₁ (fetch_stocks_prices [s₁, s₂]
        (provider (max 180 (days + 60)))) = some df₁ ∧
      assocLookup s₂ (fetch_stocks_prices [s₁, s₂]
        (provider (max 180 (days + 60)))) = some df₂ ∧
      10 ≤ (tailN days (mergeJoin df₁ df₂)).length ∧
      out = mkPairResult s₁ s₂ (tailN days (mergeJoin df₁ df₂)) := by
  rcases h1 : assocLookup s₁ (fetch_stocks_prices [s₁, s₂]
      (provider (max 180 (days + 60)))) with _ | df₁
  · simp only [get_two_stocks_comparison, h1] at h
    exact Option.noConfusion h
  · rcases h2 : assocLookup s₂ (fetch_stocks_prices [s₁, s₂]
        (provider (max 180 (days + 60)))) with _ | df₂
    · simp only [get_two_stocks_comparison, h1, h2] at h
      exact Option.noConfusion h
    · simp only [get_two_stocks_comparison, h1, h2] at h
      by_cases hc : (tailN days (mergeJoin df₁ df₂)).isEmpty
          ∨ (tailN days (mergeJoin df₁ df₂)).length < 10
      · rw [if_pos hc] at h
        exact absurd h (by simp)
      · rw [if_neg hc] at h
        refine ⟨df₁, df₂, rfl, rfl, ?_, (Option.some_inj.mp h).symm⟩
        rcases not_or.mp hc with ⟨_, hlen⟩
        omega

theorem comparison_none_of_short (provider : ℕ → RawResp) (s₁ s₂ : String)
    (days : ℕ) (df₁ df₂ : Series)
    (h1 : assocLookup s₁ (fetch_stocks_prices [s₁, s₂]
      (provider (max 180 (days + 60)))) = some df₁)
    (h2 : assocLookup s₂ (fetch_stocks_prices [s₁, s₂]
      (provider (max 180 (days + 60)))) = some df₂)
    (hshort : (tailN days (mergeJoin df₁ df₂)).length < 10) :
    get_two_stocks_comparison provider s₁ s₂ days = none := by
  simp only [get_two_stocks_comparison, h1, h2]
  rw [if_pos (Or.inr hshort)]

/-! ### Claim C5 -/

/-- Claim C5: `get_two_stocks_comparison` returns an all-absent result
(the all-`None` tuple, modelled as `none`) whenever either input
identifier's series is missing from the batch fetch, or the inner-joined
series is empty, or the inner-joined series has fewer than 10
observations. -/
theorem c5_pair_below_min_is_all_absent (provider : ℕ → RawResp)
    (s₁ s₂ : String) (days : ℕ)
    (h : assocLookup s₁ (fetch_stocks_prices [s₁, s₂]
          (provider (max 180 (days + 60)))) = none ∨
        assocLookup s₂ (fetch_stocks_prices [s₁, s₂]
          (provider (max 180 (days + 60)))) = none ∨
        comparisonJoined (provider (max 180 (days + 60))) s₁ s₂ = [] ∨
        (comparisonJoined (provider (max 180 (days + 60))) s₁ s₂).length
          < 10) :
    get_two_stocks_comparison provider s₁ s₂ days = none := by
  rcases h1 : assocLookup s₁ (fetch_stocks_prices [s₁, s₂]
      (provider (max 180 (days + 60)))) with _ | df₁
  · simp only [get_two_stocks_comparison, h1]
  · rcases h2 : assocLookup s₂ (fetch_stocks_prices [s₁, s₂]
        (provider (max 180 (days + 60)))) with _ | df₂
    · simp only [get_two_stocks_comparison, h1, h2]
    · have hj : comparisonJoined (provider (max 180 (days + 60))) s₁ s₂
          = mergeJoin df₁ df₂ := by
        simp only [comparisonJoined, h1, h2]
      have hlen : (mergeJoin df₁ df₂).length < 10 := by
        rcases h with hx | hx | hx | hx
        · rw [h1] at hx
          exact absurd hx (by simp)
        · rw [h2] at hx
          exact absurd hx (by simp)
        · rw [hj] at hx
          simp [hx]
        · rw [hj] at hx
          exact hx
      refine comparison_none_of_short provider s₁ s₂ days df₁ df₂ h1 h2 ?_
      have := tailN_length days (mergeJoin df₁ df₂)
      omega

/-- Claim C5 witness: a pair with exactly 9 overlapping dates yields the
all-absent result. -/
theorem c5_pair_below_min_is_all_absent_witness :
    (comparisonJoined (shortPairProvider 180) "X" "Y").length = 9 ∧
    get_two_stocks_comparison shortPairProvider "X" "Y" 60 = none :=
  ⟨by decide,
    c5_pair_below_min_is_all_absent shortPairProvider "X" "Y" 60
      (Or.inr (Or.inr (Or.inr (by decide))))⟩

/-! ### Claim C6 -/

/-- Claim C6: `fetch_stocks_prices` returns an empty mapping when the
whole batch request fails or the response frame is empty; an identifier
whose column is absent from the batch response is simply absent from the
output mapping (no key, no error) — in both the multi-identifier shape
(per-ticker column) and the single-identifier shape (flat `"Close"`
column); and `get_two_stocks_comparison` consults the provider only at
the lookback `max(180, horizon_days + 60)` calendar days. -/
theorem c6_batch_partial_failure :
    (∀ sids : List String, fetch_stocks_prices sids .fail = []) ∧
    (∀ (sids : List String) (index : List ℕ)
      (cols : List (String × List (Option ℚ))),
      index = [] ∨ cols = [] →
      fetch_stocks_prices sids (.table index cols) = []) ∧
    (∀ (s₁ s₂ : String) (rest : List String) (index : List ℕ)
      (cols : List (String × List (Option ℚ))) (sid : String),
      assocLookup (to_yf_ticker sid) cols = none →
      assocLookup sid
        (fetch_stocks_prices (s₁ :: s₂ :: rest) (.table index cols))
        = none) ∧
    (∀ (s : String) (index : List ℕ)
      (cols : List (String × List (Option ℚ))),
      assocLookup "Close" cols = none →
      fetch_stocks_prices [s] (.table index cols) = []) ∧
    (∀ (p q : ℕ → RawResp) (s₁ s₂ : String) (days : ℕ),
      p (max 180 (days + 60)) = q (max 180 (days + 60)) →
      get_two_stocks_comparison p s₁ s₂ days
        = get_two_stocks_comparison q s₁ s₂ days) := by
  refine ⟨?_, ?_, ?_, ?_, ?_⟩
  · intro sids
    cases sids <;> rfl
  · intro sids index cols hidx
    have hempty : index.isEmpty ∨ cols.isEmpty := by
      rcases hidx with hx | hx <;> simp [hx]
    match sids with
    | [] => rfl
    | [s] =>
      rw [fetch_single_unfold, if_pos hempty]
    | s₁ :: s₂ :: rest =>
      rw [fetch_multi_unfold, if_pos hempty]
  · intro s₁ s₂ rest index cols sid hcol
    exact lookup_fetch_multi_absent s₁ s₂ rest index cols sid hcol
  · intro s index cols hclose
    rw [fetch_single_unfold]
    by_cases hempty : index.isEmpty ∨ cols.isEmpty
    · rw [if_pos hempty]
    · rw [if_neg hempty, hclose]
  · intro p q s₁ s₂ days hpq
    simp only [get_two_stocks_comparison]
    rw [hpq]

/-- Claim C6 witness: the failure, empty-frame, absent-column (both
shapes) and lookback-dependence cases at concrete inputs. -/
theorem c6_batch_partial_failure_witness :
    (fetch_stocks_prices ["X", "Y"] .fail = []) ∧
    (fetch_stocks_prices ["X"] (.table [] [("Close", [some 1])]) = []) ∧
    (assocLookup "X"
      (fetch_stocks_prices ["X", "Y"] (.table [0] [("Q", [some 1])]))
      = none) ∧
    (fetch_stocks_prices ["X"] (.table [0] [("Q", [some 1])]) = []) ∧
    (get_two_stocks_comparison (fun _ => .fail) "X" "Y" 180
      = get_two_stocks_comparison
          (fun n => if n = 240 then .fail
            else .table [0] [("Q", [some 1])]) "X" "Y" 180) :=
  ⟨c6_batch_partial_failure.1 ["X", "Y"],
    c6_batch_partial_failure.2.1 ["X"] [] [("Close", [some 1])]
      (Or.inl rfl),
    c6_batch_partial_failure.2.2.1 "X" "Y" [] [0] [("Q", [some 1])] "X"
      (by decide),
    c6_batch_partial_failure.2.2.2.1 "X" [0] [("Q", [some 1])]
      (by decide),
    c6_batch_partial_failure.2.2.2.2 (fun _ => .fail)
      (fun n => if n = 240 then .fail else .table [0] [("Q", [some 1])])
      "X" "Y" 180 (by decide)⟩

/-! ### Claim C1 -/

/-- Claim C1 counterexample: with 125 joined observations and
`horizon_days = 20`, the claim asserts the 60- and 120-day
moving-average rows are present; the code truncates to the most recent
20 observations *before* computing the moving averages, so both are
absent (from the merged frame's columns and from the detail table's
rows). -/
theorem c1_counterexample_ma_after_truncation :
    (comparisonJoined (longPairProvider 180) "A" "B").length = 125 ∧
    Option.map (fun o => o.ma60)
      (get_two_stocks_comparison longPairProvider "A" "B" 20)
      = some none ∧
    Option.map (fun o => o.ma120)
      (get_two_stocks_comparison longPairProvider "A" "B" 20)
      = some none ∧
    Option.map (fun o => decide ("60日均比" ∈ o.detail.rowLabels))
      (get_two_stocks_comparison longPairProvider "A" "B" 20)
      = some false ∧
    Option.map (fun o => decide ("120日均比" ∈ o.detail.rowLabels))
      (get_two_stocks_comparison longPairProvider "A" "B" 20)
      = some false := by
  refine ⟨by decide, by decide, by decide, by decide, by decide⟩

/-- Claim C1 (amended): the moving averages of the ratio are computed
over the series truncated to the most recent `horizon_days`
observations, and each moving-average column is included iff the
*truncated* series has at least that many observations; with
`horizon_days = 20` the 60- and 120-day rows are therefore never
present, regardless of how long the joined series is. -/
theorem c1_ma_over_truncated_series (provider : ℕ → RawResp)
    (s₁ s₂ : String) (days : ℕ) (out : PairResult)
    (h : get_two_stocks_comparison provider s₁ s₂ days = some out) :
    out.rows = tailN days
      (comparisonJoined (provider (max 180 (days + 60))) s₁ s₂) ∧
    out.ratio = out.rows.map (fun r => r.2.1 / r.2.2) ∧
    (out.ma20.isSome ↔ 20 ≤ out.rows.length) ∧
    (out.ma60.isSome ↔ 60 ≤ out.rows.length) ∧
    (out.ma120.isSome ↔ 120 ≤ out.rows.length) ∧
    out.ma20 = (if 20 ≤ out.rows.length
      then some (rollingMean 20 out.ratio) else none) ∧
    out.ma60 = (if 60 ≤ out.rows.length
      then some (rollingMean 60 out.ratio) else none) ∧
    out.ma120 = (if 120 ≤ out.rows.length
      then some (rollingMean 120 out.ratio) else none) := by
  rcases comparison_some provider s₁ s₂ days out h
    with ⟨df₁, df₂, h1, h2, hlen, hout⟩
  have hj : comparisonJoined (provider (max 180 (days + 60))) s₁ s₂
      = mergeJoin df₁ df₂ := by
    simp only [comparisonJoined, h1, h2]
  rcases mkPairResult_fields s₁ s₂ (tailN days (mergeJoin df₁ df₂))
    with ⟨hr, hq, _, _, h20, h60, h120⟩
  subst hout
  rw [hj, hr, hq, h20, h60, h120]
  refine ⟨rfl, rfl, ?_, ?_, ?_, rfl, rfl, rfl⟩
  · by_cases hc : 20 ≤ (tailN days (mergeJoin df₁ df₂)).length <;>
      simp [hc]
  · by_cases hc : 60 ≤ (tailN days (mergeJoin df₁ df₂)).length <;>
      simp [hc]
  · by_cases hc : 120 ≤ (tailN days (mergeJoin df₁ df₂)).length <;>
      simp [hc]

/-! ### Claim C7 -/

/-- Claim C7: over the same static price history,
`get_two_stocks_comparison(A, B, h)` and
`get_two_stocks_comparison(B, A, h)` are label-swapped mirror images:
one is absent iff the other is; the price columns swap roles, the set
(and order) of surviving dates is identical, the ratio series of one is
the pointwise reciprocal of the other's, and the column labels swap. -/
theorem c7_swap_mirror (provider : ℕ → RawResp) (s₁ s₂ : String)
    (days : ℕ) (hne : s₁ ≠ s₂) :
    (get_two_stocks_comparison provider s₁ s₂ days = none ↔
      get_two_stocks_comparison provider s₂ s₁ days = none) ∧
    (∀ a b : PairResult,
      get_two_stocks_comparison provider s₁ s₂ days = some a →
      get_two_stocks_comparison provider s₂ s₁ days = some b →
      b.rows = a.rows.map (fun r => (r.1, r.2.2, r.2.1)) ∧
      b.rows.map (fun r => r.1) = a.rows.map (fun r => r.1) ∧
      b.ratio = a.ratio.map (fun q => q⁻¹) ∧
      b.label1 = a.label2 ∧ b.label2 = a.label1) := by
  obtain ⟨hA1, hA2⟩ :=
    lookup_fetch_pair s₁ s₂ hne (provider (max 180 (days + 60)))
  obtain ⟨hB2, hB1⟩ :=
    lookup_fetch_pair s₂ s₁ (Ne.symm hne) (provider (max 180 (days + 60)))
  rcases hm1 : mExtract (provider (max 180 (days + 60))) s₁ with _ | df₁ <;>
    rcases hm2 : mExtract (provider (max 180 (days + 60))) s₂ with _ | df₂ <;>
      rw [hm1] at hA1 hB1 <;> rw [hm2] at hA2 hB2
  · have e1 : get_two_stocks_comparison provider s₁ s₂ days = none := by
      simp only [get_two_stocks_comparison, hA1, hA2]
    have e2 : get_two_stocks_comparison provider s₂ s₁ days = none := by
      simp only [get_two_stocks_comparison, hB2, hB1]
    rw [e1, e2]
    exact ⟨Iff.rfl, fun a b ha _ => absurd ha (by simp)⟩
  · have e1 : get_two_stocks_comparison provider s₁ s₂ days = none := by
      simp only [get_two_stocks_comparison, hA1, hA2]
    have e2 : get_two_stocks_comparison provider s₂ s₁ days = none := by
      simp only [get_two_stocks_comparison, hB2, hB1]
    rw [e1, e2]
    exact ⟨Iff.rfl, fun a b ha _ => absurd ha (by simp)⟩
  · have e1 : get_two_stocks_comparison provider s₁ s₂ days = none := by
      simp only [get_two_stocks_comparison, hA1, hA2]
    have e2 : get_two_stocks_comparison provider s₂ s₁ days = none := by
      simp only [get_two_stocks_comparison, hB2, hB1]
    rw [e1, e2]
    exact ⟨Iff.rfl, fun a b ha _ => absurd ha (by simp)⟩
  · have hM2 : tailN days (mergeJoin df₂ df₁)
        = (tailN days (mergeJoin df₁ df₂)).map
            (fun r => (r.1, r.2.2, r.2.1)) := by
      rw [mergeJoin_swap df₁ df₂]
      exact tailN_map _ _ _
    have hie : ∀ (f : ℕ × ℚ × ℚ → ℕ × ℚ × ℚ) (l : Joined),
        (l.map f).isEmpty = l.isEmpty := by
      intro f l
      cases l <;> rfl
    simp only [get_two_stocks_comparison, hA1, hA2, hB2, hB1, hM2]
    by_cases hc : (tailN days (mergeJoin df₁ df₂)).isEmpty
        ∨ (tailN days (mergeJoin df₁ df₂)).length < 10
    · rw [if_pos hc, if_pos (by
        rcases hc with hc | hc
        · exact Or.inl (by rw [hie]; exact hc)
        · exact Or.inr (by rw [List.length_map]; exact hc))]
      exact ⟨Iff.rfl, fun a b ha _ => absurd ha (by simp)⟩
    · rw [if_neg hc, if_neg (by
        intro hcon
        rcases hcon with hcon | hcon
        · exact hc (Or.inl (by rwa [hie] at hcon))
        · exact hc (Or.inr (by rwa [List.length_map] at hcon)))]
      refine ⟨by simp, ?_⟩
      intro a b ha hb
      have hae : a = mkPairResult s₁ s₂ (tailN days (mergeJoin df₁ df₂)) :=
        (Option.some_inj.mp ha).symm
      have hbe : b = mkPairResult s₂ s₁
          ((tailN days (mergeJoin df₁ df₂)).map
            (fun r => (r.1, r.2.2, r.2.1))) :=
        (Option.some_inj.mp hb).symm
      subst hae hbe
      refine ⟨rfl, ?_, ?_, rfl, rfl⟩
      · show ((tailN days (mergeJoin df₁ df₂)).map
            (fun r => (r.1, r.2.2, r.2.1))).map (fun r => r.1)
          = (tailN days (mergeJoin df₁ df₂)).map (fun r => r.1)
        rw [List.map_map]
        rfl
      · show ((tailN days (mergeJoin df₁ df₂)).map
            (fun r => (r.1, r.2.2, r.2.1))).map (fun r => r.2.1 / r.2.2)
          = ((tailN days (mergeJoin df₁ df₂)).map
              (fun r => r.2.1 / r.2.2)).map (fun q => q⁻¹)
        rw [List.map_map, List.map_map]
        refine List.map_congr_left ?_
        intro r _
        show r.2.2 / r.2.1 = (r.2.1 / r.2.2)⁻¹
        rw [inv_div]

/-- Claim C7 witness: the mirror relation at a concrete pair with a
10-observation overlap. -/
theorem c7_swap_mirror_witness :
    (get_two_stocks_comparison shortSpanProvider "A" "B" 20
      = some ((get_two_stocks_comparison shortSpanProvider "A" "B" 20).getD
          emptyPair)) ∧
    (get_two_stocks_comparison shortSpanProvider "B" "A" 20
      = some ((get_two_stocks_comparison shortSpanProvider "B" "A" 20).getD
          emptyPair)) ∧
    (((get_two_stocks_comparison shortSpanProvider "B" "A" 20).getD
        emptyPair).rows
      = ((get_two_stocks_comparison shortSpanProvider "A" "B" 20).getD
          emptyPair).rows.map (fun r => (r.1, r.2.2, r.2.1)) ∧
      ((get_two_stocks_comparison shortSpanProvider "B" "A" 20).getD
        emptyPair).rows.map (fun r => r.1)
      = ((get_two_stocks_comparison shortSpanProvider "A" "B" 20).getD
          emptyPair).rows.map (fun r => r.1) ∧
      ((get_two_stocks_comparison shortSpanProvider "B" "A" 20).getD
        emptyPair).ratio
      = ((get_two_stocks_comparison shortSpanProvider "A" "B" 20).getD
          emptyPair).ratio.map (fun q => q⁻¹) ∧
      ((get_two_stocks_comparison shortSpanProvider "B" "A" 20).getD
        emptyPair).label1
      = ((get_two_stocks_comparison shortSpanProvider "A" "B" 20).getD
          emptyPair).label2 ∧
      ((get_two_stocks_comparison shortSpanProvider "B" "A" 20).getD
        emptyPair).label2
      = ((get_two_stocks_comparison shortSpanProvider "A" "B" 20).getD
          emptyPair).label1) :=
  ⟨by decide, by decide,
    (c7_swap_mirror shortSpanProvider "A" "B" 20 (by decide)).2 _ _
      (by decide) (by decide)⟩

/-- Claim C1 witness: a 120-day request over 125 joined observations has
all three moving-average columns, each computed over the truncated
120-row series. -/
theorem c1_ma_over_truncated_series_witness :
    get_two_stocks_comparison longPairProvider "A" "B" 120
      = some ((get_two_stocks_comparison longPairProvider "A" "B" 120).getD
          emptyPair) ∧
    ((get_two_stocks_comparison longPairProvider "A" "B" 120).getD
        emptyPair).rows.length = 120 ∧
    (((get_two_stocks_comparison longPairProvider "A" "B" 120).getD
        emptyPair).ma120.isSome ↔
      120 ≤ ((get_two_stocks_comparison longPairProvider "A" "B" 120).getD
        emptyPair).rows.length) :=
  ⟨by decide, by decide,
    (c1_ma_over_truncated_series longPairProvider "A" "B" 120
      ((get_two_stocks_comparison longPairProvider "A" "B" 120).getD
        emptyPair) (by decide)).2.2.2.2.1⟩

/-! ### Claim C3 -/

/-- Claim C3 counterexample: a candidate whose 20 aligned observations
are constant (zero variance) has a `NaN` — hence absent — 20-day
correlation although the aligned series has the required 20
observations; presence is therefore not equivalent to the length
condition alone. -/
theorem c3_counterexample_zero_variance :
    Option.map CorrRecord.corr20
      (firstRec (calculate_correlations flatCandResp "T" ["A"] none))
      = some none ∧
    (corrAligned flatCandResp "T" ["A"] none "A").length = 20 := by
  exact ⟨by decide, by decide⟩

/-- Claim C3 (amended): in every record `calculate_correlations`
produces, a horizon's correlation value is present iff the
aligned-with-target series (restricted to the most recent 120
observations) has at least that many observations *and* the Pearson
correlation over that trailing window is defined, i.e. both legs have
nonzero variance there; insufficient overlap and a degenerate
(zero-variance) window both yield an absent value, not zero and not an
error. -/
theorem c3_horizon_presence (resp : RawResp) (target : String)
    (codes : List String) (lim : Option ℕ) (recs : List (ℕ × CorrRecord))
    (h : calculate_correlations resp target codes lim = .ok recs)
    (p : ℕ × CorrRecord) (hp : p ∈ recs) :
    (p.2.corr20.isSome ↔
      20 ≤ (corrAligned resp target codes lim p.2.sid).length ∧
      varSum (tailN 20 ((corrAligned resp target codes lim p.2.sid).map
        (fun r => r.2.1))) ≠ 0 ∧
      varSum (tailN 20 ((corrAligned resp target codes lim p.2.sid).map
        (fun r => r.2.2))) ≠ 0) ∧
    (p.2.corr60.isSome ↔
      60 ≤ (corrAligned resp target codes lim p.2.sid).length ∧
      varSum (tailN 60 ((corrAligned resp target codes lim p.2.sid).map
        (fun r => r.2.1))) ≠ 0 ∧
      varSum (tailN 60 ((corrAligned resp target codes lim p.2.sid).map
        (fun r => r.2.2))) ≠ 0) ∧
    (p.2.corr120.isSome ↔
      120 ≤ (corrAligned resp target codes lim p.2.sid).length ∧
      varSum ((corrAligned resp target codes lim p.2.sid).map
        (fun r => r.2.1)) ≠ 0 ∧
      varSum ((corrAligned resp target codes lim p.2.sid).map
        (fun r => r.2.2)) ≠ 0) := by
  rcases mem_ok_origin resp target codes lim recs h p hp
    with ⟨sid, _, heq, _⟩
  have hsid : p.2.sid = sid := by rw [heq, mkCorrRecord_sid]
  rw [hsid, heq, mkCorrRecord_corr20, mkCorrRecord_corr60,
    mkCorrRecord_corr120]
  refine ⟨?_, ?_, ?_⟩
  · by_cases hc : 20 ≤ (corrAligned resp target codes lim sid).length
    · rw [if_pos hc, Option.isSome_map', corrKernel_isSome]
      simp [hc]
    · rw [if_neg hc]
      simp [hc]
  · by_cases hc : 60 ≤ (corrAligned resp target codes lim sid).length
    · rw [if_pos hc, Option.isSome_map', corrKernel_isSome]
      simp [hc]
    · rw [if_neg hc]
      simp [hc]
  · by_cases hc : 120 ≤ (corrAligned resp target codes lim sid).length
    · rw [if_pos hc, Option.isSome_map', corrKernel_isSome]
      simp [hc]
    · rw [if_neg hc]
      simp [hc]

/-- Claim C3 witness: on a 20-observation aligned pair with nonzero
variances, the 20-day value is present and the 60/120-day values are
absent, as the amended equivalence dictates. -/
theorem c3_horizon_presence_witness :
    (calculate_correlations rampResp "T" ["A", "B"] none
      = .ok (okRecords (calculate_correlations rampResp "T" ["A", "B"]
          none))) ∧
    ((1 : ℕ), (⟨"A", "A", none, some 1, none, ""⟩ : CorrRecord))
      ∈ okRecords (calculate_correlations rampResp "T" ["A", "B"] none) ∧
    (((1 : ℕ),
        (⟨"A", "A", none, some 1, none, ""⟩ : CorrRecord)).2.corr20.isSome ↔
      20 ≤ (corrAligned rampResp "T" ["A", "B"] none "A").length ∧
      varSum (tailN 20 ((corrAligned rampResp "T" ["A", "B"] none
        "A").map (fun r => r.2.1))) ≠ 0 ∧
      varSum (tailN 20 ((corrAligned rampResp "T" ["A", "B"] none
        "A").map (fun r => r.2.2))) ≠ 0) :=
  ⟨by decide, by decide,
    (c3_horizon_presence rampResp "T" ["A", "B"] none
      (okRecords (calculate_correlations rampResp "T" ["A", "B"] none))
      (by decide) _ (by decide)).1⟩

/-! ### Claim C4 -/

/-- Claim C4 (code bug): the target-side precondition holds — a missing
or sub-20-observation target series yields an empty result — but
candidate exclusion is *not* always silent: when the target is healthy
and every candidate is excluded, `results` is empty,
`pd.DataFrame([])` has no columns, and
`sort_values("120天相關係數")` raises `KeyError` (the `err` outcome)
instead of returning an empty result. -/
theorem c4_all_candidates_excluded_raises :
    calculate_correlations onlyTargetResp "T" ["A"] none = .err ∧
    calculate_correlations .fail "T" ["A"] none = .ok [] ∧
    calculate_correlations shortTargetResp "T" ["A"] none = .ok [] := by
  exact ⟨by decide, by decide, by decide⟩

/-! ### Claim C9 -/

/-- Claim C9: every correlation value present in a record returned by
`calculate_correlations` (at any of the three horizons) has been rounded
to 4 decimal places: times `10⁴` it is an integer, so the raw Pearson
value is never exposed. -/
theorem c9_rounded_to_4dp (resp : RawResp) (target : String)
    (codes : List String) (lim : Option ℕ) (recs : List (ℕ × CorrRecord))
    (h : calculate_correlations resp target codes lim = .ok recs)
    (p : ℕ × CorrRecord) (hp : p ∈ recs) (v : ℚ)
    (hv : p.2.corr120 = some v ∨ p.2.corr20 = some v ∨
      p.2.corr60 = some v) :
    (v * 10000).den = 1 := by
  rcases mem_ok_origin resp target codes lim recs h p hp
    with ⟨sid, _, heq, _⟩
  rw [heq] at hv
  have hround : ∃ x : ℚ, v = round4 x := by
    rcases hv with hv | hv | hv
    · rw [mkCorrRecord_corr120] at hv
      by_cases hc : 120 ≤ (corrAligned resp target codes lim sid).length
      · rw [if_pos hc] at hv
        rcases Option.map_eq_some'.mp hv with ⟨x, _, hx⟩
        exact ⟨x, hx.symm⟩
      · rw [if_neg hc] at hv
        exact absurd hv (by simp)
    · rw [mkCorrRecord_corr20] at hv
      by_cases hc : 20 ≤ (corrAligned resp target codes lim sid).length
      · rw [if_pos hc] at hv
        rcases Option.map_eq_some'.mp hv with ⟨x, _, hx⟩
        exact ⟨x, hx.symm⟩
      · rw [if_neg hc] at hv
        exact absurd hv (by simp)
    · rw [mkCorrRecord_corr60] at hv
      by_cases hc : 60 ≤ (corrAligned resp target codes lim sid).length
      · rw [if_pos hc] at hv
        rcases Option.map_eq_some'.mp hv with ⟨x, _, hx⟩
        exact ⟨x, hx.symm⟩
      · rw [if_neg hc] at hv
        exact absurd hv (by simp)
  rcases hround with ⟨x, hx⟩
  rw [hx]
  exact round4_den x

/-- Claim C9 witness: the perfectly anti-correlated candidate's stored
20-day value `-1` (rounded) times `10⁴` is an integer. -/
theorem c9_rounded_to_4dp_witness :
    (calculate_correlations rampResp "T" ["A", "B"] none
      = .ok (okRecords (calculate_correlations rampResp "T" ["A", "B"]
          none))) ∧
    ((2 : ℕ), (⟨"B", "B", none, some (-1), none, ""⟩ : CorrRecord))
      ∈ okRecords (calculate_correlations rampResp "T" ["A", "B"] none) ∧
    (((-1 : ℚ)) * 10000).den = 1 :=
  ⟨by decide, by decide,
    c9_rounded_to_4dp rampResp "T" ["A", "B"] none
      (okRecords (calculate_correlations rampResp "T" ["A", "B"] none))
      (by decide)
      ((2 : ℕ), (⟨"B", "B", none, some (-1), none, ""⟩ : CorrRecord))
      (by decide) (-1) (Or.inr (Or.inl rfl))⟩

/-! ### Claim C10 -/

/-- Claim C10: a candidate whose aligned-with-target series has between
20 and 119 observations is still included in the output — its record
merely has an absent 120-day correlation — and in the sorted output
every record with a present 120-day value precedes every record with an
absent one (absent sort keys go last). -/
theorem c10_absent_key_sorts_last (resp : RawResp) (target : String)
    (codes : List String) (lim : Option ℕ) (sid : String) (c t : Series)
    (hsid : sid ∈ corrOthers target codes lim)
    (ht : assocLookup target (corrPrices resp target codes lim) = some t)
    (htl : ¬ t.length < 20)
    (hc : assocLookup sid (corrPrices resp target codes lim) = some c)
    (hcl : ¬ c.length < 20)
    (hal : 20 ≤ (corrAligned resp target codes lim sid).length)
    (hau : (corrAligned resp target codes lim sid).length < 120) :
    ∃ recs, calculate_correlations resp target codes lim = .ok recs ∧
      (∃ p ∈ recs, p.2.sid = sid ∧ p.2.corr120 = none) ∧
      recs.Pairwise
        (fun a b => a.2.corr120 = none → b.2.corr120 = none) := by
  have hmem : mkCorrRecord sid (corrAligned resp target codes lim sid)
      ∈ corrResults resp target codes lim := by
    refine List.mem_filterMap.mpr ⟨sid, hsid, ?_⟩
    rw [hc]
    dsimp only
    rw [if_neg hcl, if_neg (by omega)]
  have hres_ne : ¬ (corrResults resp target codes lim).isEmpty := by
    intro hempty
    rw [List.isEmpty_iff] at hempty
    rw [hempty] at hmem
    exact absurd hmem (by simp)
  have hothers : ¬ (corrOthers target codes lim).isEmpty := by
    intro hempty
    rw [List.isEmpty_iff] at hempty
    rw [hempty] at hsid
    exact absurd hsid (by simp)
  have hcalc : calculate_correlations resp target codes lim
      = .ok (rankRecords (stableSort recBefore
          (corrResults resp target codes lim))) := by
    rw [calculate_correlations, if_neg hothers, ht]
    dsimp only
    rw [if_neg htl, if_neg hres_ne]
  refine ⟨rankRecords (stableSort recBefore
    (corrResults resp target codes lim)), hcalc, ?_, ?_⟩
  · have hsort : mkCorrRecord sid (corrAligned resp target codes lim sid)
        ∈ stableSort recBefore (corrResults resp target codes lim) :=
      (stableSort_perm recBefore _).mem_iff.mpr hmem
    have hmap : mkCorrRecord sid (corrAligned resp target codes lim sid)
        ∈ (rankRecords (stableSort recBefore
            (corrResults resp target codes lim))).map Prod.snd := by
      rw [rankRecords_map_snd]
      exact hsort
    rcases List.mem_map.mp hmap with ⟨p, hp, hpsnd⟩
    refine ⟨p, hp, ?_, ?_⟩
    · rw [hpsnd, mkCorrRecord_sid]
    · rw [hpsnd, mkCorrRecord_corr120, if_neg (by omega)]
  · have hpair := pairwise_stableSort recBefore recBefore_asymm
      recBefore_negtrans (corrResults resp target codes lim)
    have hpair2 : ((rankRecords (stableSort recBefore
        (corrResults resp target codes lim))).map Prod.snd).Pairwise
          (fun a b => recBefore b a = false) := by
      rw [rankRecords_map_snd]
      exact hpair
    refine (List.pairwise_map.mp hpair2).imp ?_
    intro a b hab hanone
    rcases hb : b.2.corr120 with _ | bv
    · rfl
    · rw [recBefore, hb, hanone] at hab
      exact absurd hab (by simp)

/-- Claim C10 witness: the included candidate with a 20-observation
aligned series and an absent 120-day value, via the theorem at a
concrete input. -/
theorem c10_absent_key_sorts_last_witness :
    ("A" ∈ corrOthers "T" ["A", "B"] none) ∧
    (∃ recs, calculate_correlations rampResp "T" ["A", "B"] none
        = .ok recs ∧
      (∃ p ∈ recs, p.2.sid = "A" ∧ p.2.corr120 = none) ∧
      recs.Pairwise
        (fun a b => a.2.corr120 = none → b.2.corr120 = none)) := by
  refine ⟨by decide, ?_⟩
  have h20 : (20 : ℕ) ≤ (corrAligned rampResp "T" ["A", "B"] none
      "A").length := by decide
  have h120 : (corrAligned rampResp "T" ["A", "B"] none "A").length
      < 120 := by decide
  exact c10_absent_key_sorts_last rampResp "T" ["A", "B"] none "A"
    (normalizeSeries (List.range 20) (rampCol 20))
    (normalizeSeries (List.range 20) (rampCol 20))
    (by decide) (by decide) (by decide) (by decide) (by decide) h20 h120

/-! ### Claim C8 -/

theorem appendMACells_fst (cells : List (ℕ × List (Option ℚ)))
    (ma : Option (List (Option ℚ)))
    (hma : ∀ m, ma = some m → m.length = cells.length) :
    (appendMACells cells ma).map (fun c => c.1)
        = cells.map (fun c => c.1) ∧
      (appendMACells cells ma).length = cells.length := by
  cases ma with
  | none => exact ⟨rfl, rfl⟩
  | some m =>
    constructor
    · exact zipWith_fst (fun c => c.1) (fun c v => c.2 ++ [v]) cells m
        (hma m rfl)
    · exact zipWith_pair_length (fun c => c.1) (fun c v => c.2 ++ [v])
        cells m (hma m rfl)

theorem mkPairResult_detail (s₁ s₂ : String) (m : Joined) :
    (mkPairResult s₁ s₂ m).detail
      = mkDetailTable s₁ s₂ m (m.map (fun r => r.2.1 / r.2.2))
          (diffList (m.map (fun r => r.2.1)))
          (diffList (m.map (fun r => r.2.2)))
          (if 20 ≤ m.length
            then some (rollingMean 20 (m.map (fun r => r.2.1 / r.2.2)))
            else none)
          (if 60 ≤ m.length
            then some (rollingMean 60 (m.map (fun r => r.2.1 / r.2.2)))
            else none)
          (if 120 ≤ m.length
            then some (rollingMean 120 (m.map (fun r => r.2.1 / r.2.2)))
            else none) := rfl

theorem mkDetailTable_rowLabels (s₁ s₂ : String) (rows : Joined)
    (ratio : List ℚ) (diff1 diff2 : List (Option ℚ))
    (ma20 ma60 ma120 : Option (List (Option ℚ))) :
    (mkDetailTable s₁ s₂ rows ratio diff1 diff2 ma20 ma60 ma120).rowLabels
      = ["股價 " ++ get_stock_name s₁, "股價 " ++ get_stock_name s₂,
          "股價變動 " ++ get_stock_name s₁,
          "股價變動 " ++ get_stock_name s₂, "股價相除"]
        ++ (if ma20.isSome then ["20日均比"] else [])
        ++ (if ma60.isSome then ["60日均比"] else [])
        ++ (if ma120.isSome then ["120日均比"] else []) := rfl

theorem mkDetailTable_cols (s₁ s₂ : String) (rows : Joined)
    (ratio : List ℚ) (diff1 diff2 : List (Option ℚ))
    (ma20 ma60 ma120 : Option (List (Option ℚ)))
    (hr : ratio.length = rows.length) (h1 : diff1.length = rows.length)
    (h2 : diff2.length = rows.length)
    (hm20 : ∀ m, ma20 = some m → m.length = rows.length)
    (hm60 : ∀ m, ma60 = some m → m.length = rows.length)
    (hm120 : ∀ m, ma120 = some m → m.length = rows.length)
    (hn : (rows.map (fun r => dateLabel r.1)).Nodup) :
    (mkDetailTable s₁ s₂ rows ratio diff1 diff2 ma20 ma60
        ma120).cols.map Prod.fst
      = (rows.map (fun r => dateLabel r.1)).reverse ∧
    (mkDetailTable s₁ s₂ rows ratio diff1 diff2 ma20 ma60
        ma120).cols.length = rows.length := by
  have hzlen : ((diff1.zip diff2).zip ratio).length = rows.length := by
    rw [List.length_zip, List.length_zip, hr, h1, h2]
    omega
  have hbase :=
    zipWith_fst (fun (r : ℕ × ℚ × ℚ) => r.1)
      (fun (r : ℕ × ℚ × ℚ) (d : (Option ℚ × Option ℚ) × ℚ) =>
        [some r.2.1, some r.2.2, d.1.1, d.1.2, some d.2])
      rows ((diff1.zip diff2).zip ratio) hzlen
  have hbaselen :=
    zipWith_pair_length (fun (r : ℕ × ℚ × ℚ) => r.1)
      (fun (r : ℕ × ℚ × ℚ) (d : (Option ℚ × Option ℚ) × ℚ) =>
        [some r.2.1, some r.2.2, d.1.1, d.1.2, some d.2])
      rows ((diff1.zip diff2).zip ratio) hzlen
  set base := List.zipWith
    (fun (r : ℕ × ℚ × ℚ) (d : (Option ℚ × Option ℚ) × ℚ) =>
      (r.1, [some r.2.1, some r.2.2, d.1.1, d.1.2, some d.2]))
    rows ((diff1.zip diff2).zip ratio) with hbasedef
  have s20 := appendMACells_fst base ma20
    (fun m hm => by rw [hm20 m hm, hbaselen])
  have s60 := appendMACells_fst (appendMACells base ma20) ma60
    (fun m hm => by rw [hm60 m hm, s20.2, hbaselen])
  have s120 := appendMACells_fst
    (appendMACells (appendMACells base ma20) ma60) ma120
    (fun m hm => by rw [hm120 m hm, s60.2, s20.2, hbaselen])
  set cells := appendMACells
    (appendMACells (appendMACells base ma20) ma60) ma120 with hcells
  have hfst : cells.map (fun c => c.1) = rows.map (fun r => r.1) := by
    rw [hcells, s120.1, s60.1, s20.1, hbase]
  have hlen : cells.length = rows.length := by
    rw [hcells, s120.2, s60.2, s20.2, hbaselen]
  have hlabels : cells.map (fun c => dateLabel c.1)
      = rows.map (fun r => dateLabel r.1) := by
    have e1 : cells.map (fun c => dateLabel c.1)
        = (cells.map (fun c => c.1)).map dateLabel := by
      rw [List.map_map]
      rfl
    have e2 : rows.map (fun r => dateLabel r.1)
        = (rows.map (fun r => r.1)).map dateLabel := by
      rw [List.map_map]
      rfl
    rw [e1, e2, hfst]
  have hnodup : (cells.reverse.map (fun c => dateLabel c.1)).Nodup := by
    rw [List.map_reverse, hlabels]
    exact List.nodup_reverse.mpr hn
  have hfold := foldl_dictInsert_nodup cells.reverse [] hnodup
    (fun c _ p hp => absurd hp (by simp))
  constructor
  · show (cells.reverse.foldl
        (fun acc c => dictInsert (dateLabel c.1) c.2 acc) []).map Prod.fst
      = (rows.map (fun r => dateLabel r.1)).reverse
    rw [hfold, List.nil_append, List.map_map]
    have : (Prod.fst ∘ fun (c : ℕ × List (Option ℚ)) =>
        ((dateLabel c.1, c.2) : (ℕ × ℕ) × List (Option ℚ)))
        = fun c => dateLabel c.1 := rfl
    rw [this, List.map_reverse, hlabels]
  · show (cells.reverse.foldl
        (fun acc c => dictInsert (dateLabel c.1) c.2 acc) []).length
      = rows.length
    rw [hfold, List.nil_append, List.length_map, List.length_reverse,
      hlen]

/-- Claim C8 counterexample: with a 400-day horizon the fetch window
spans over a year; two truncated dates (1970-01-01 and 1971-01-01) share
the month/day label `01/01`, the `dict` keyed by the labels collapses
them, and the detail table has 9 date columns although
`min(H, truncated size) = 10`. -/
theorem c8_counterexample_label_collision :
    Option.map (fun o => o.detail.cols.length)
      (get_two_stocks_comparison yearSpanProvider "A" "B" 400)
      = some 9 ∧
    Option.map (fun o => o.rows.length)
      (get_two_stocks_comparison yearSpanProvider "A" "B" 400)
      = some 10 ∧
    min 400 (comparisonJoined (yearSpanProvider 460) "A" "B").length
      = 10 ∧
    dateLabel 0 = dateLabel 365 := by
  exact ⟨by decide, by decide, by decide, by decide⟩

/-- Claim C8 (amended): in every Detail Table built by
`get_two_stocks_comparison` with horizon `days`, the rows appear in the
fixed order {price A, price B, Δprice A, Δprice B, ratio, then the
20d/60d/120d moving-average rows, each present only when the truncated
series can fill its window}; there is one date column per *distinct*
month/day label, in reverse chronological order (the truncated series is
strictly date-ascending and the columns walk it most-recent-first);
whenever the truncated dates' month/day labels are pairwise distinct —
guaranteed for any window under a year — the number of date columns
equals `min(days, joined size)`, the size of the truncated joined
series.  Duplicate labels (windows spanning over a year) collapse into
one column. -/
theorem c8_detail_structure (provider : ℕ → RawResp) (s₁ s₂ : String)
    (days : ℕ) (out : PairResult)
    (h : get_two_stocks_comparison provider s₁ s₂ days = some out)
    (hlab : (out.rows.map (fun r => dateLabel r.1)).Nodup) :
    out.detail.cols.map Prod.fst
      = (out.rows.map (fun r => dateLabel r.1)).reverse ∧
    out.detail.cols.length = out.rows.length ∧
    out.rows.length = min days
      (comparisonJoined (provider (max 180 (days + 60))) s₁ s₂).length ∧
    (out.rows.map (fun r => r.1)).Pairwise (· < ·) ∧
    out.detail.rowLabels
      = ["股價 " ++ s₁, "股價 " ++ s₂, "股價變動 " ++ s₁,
          "股價變動 " ++ s₂, "股價相除"]
        ++ (if 20 ≤ out.rows.length then ["20日均比"] else [])
        ++ (if 60 ≤ out.rows.length then ["60日均比"] else [])
        ++ (if 120 ≤ out.rows.length then ["120日均比"] else []) := by
  rcases comparison_some provider s₁ s₂ days out h
    with ⟨df₁, df₂, h1, h2, _, hout⟩
  have hj : comparisonJoined (provider (max 180 (days + 60))) s₁ s₂
      = mergeJoin df₁ df₂ := by
    simp only [comparisonJoined, h1, h2]
  rcases fetched_series_shape [s₁, s₂] (provider (max 180 (days + 60)))
    s₁ df₁ h1 with ⟨index, col, hdf₁⟩
  have hrows : out.rows = tailN days (mergeJoin df₁ df₂) := by
    rw [hout]
    rfl
  have hratio : (mkPairResult s₁ s₂
        (tailN days (mergeJoin df₁ df₂))).ratio
      = (tailN days (mergeJoin df₁ df₂)).map (fun r => r.2.1 / r.2.2) :=
    rfl
  have hcols := mkDetailTable_cols s₁ s₂
    (tailN days (mergeJoin df₁ df₂))
    ((tailN days (mergeJoin df₁ df₂)).map (fun r => r.2.1 / r.2.2))
    (diffList ((tailN days (mergeJoin df₁ df₂)).map (fun r => r.2.1)))
    (diffList ((tailN days (mergeJoin df₁ df₂)).map (fun r => r.2.2)))
    (if 20 ≤ (tailN days (mergeJoin df₁ df₂)).length
      then some (rollingMean 20 ((tailN days (mergeJoin df₁ df₂)).map
        (fun r => r.2.1 / r.2.2)))
      else none)
    (if 60 ≤ (tailN days (mergeJoin df₁ df₂)).length
      then some (rollingMean 60 ((tailN days (mergeJoin df₁ df₂)).map
        (fun r => r.2.1 / r.2.2)))
      else none)
    (if 120 ≤ (tailN days (mergeJoin df₁ df₂)).length
      then some (rollingMean 120 ((tailN days (mergeJoin df₁ df₂)).map
        (fun r => r.2.1 / r.2.2)))
      else none)
    (by rw [List.length_map])
    (by rw [diffList_length, List.length_map])
    (by rw [diffList_length, List.length_map])
    (by
      intro m hm
      by_cases hc : 20 ≤ (tailN days (mergeJoin df₁ df₂)).length
      · rw [if_pos hc] at hm
        rw [← Option.some_inj.mp hm, rollingMean_length,
          List.length_map]
      · rw [if_neg hc] at hm
        exact absurd hm (by simp))
    (by
      intro m hm
      by_cases hc : 60 ≤ (tailN days (mergeJoin df₁ df₂)).length
      · rw [if_pos hc] at hm
        rw [← Option.some_inj.mp hm, rollingMean_length,
          List.length_map]
      · rw [if_neg hc] at hm
        exact absurd hm (by simp))
    (by
      intro m hm
      by_cases hc : 120 ≤ (tailN days (mergeJoin df₁ df₂)).length
      · rw [if_pos hc] at hm
        rw [← Option.some_inj.mp hm, rollingMean_length,
          List.length_map]
      · rw [if_neg hc] at hm
        exact absurd hm (by simp))
    (by rw [← hrows]; exact hlab)
  have hdet : out.detail = mkDetailTable s₁ s₂
      (tailN days (mergeJoin df₁ df₂))
      ((tailN days (mergeJoin df₁ df₂)).map (fun r => r.2.1 / r.2.2))
      (diffList ((tailN days (mergeJoin df₁ df₂)).map (fun r => r.2.1)))
      (diffList ((tailN days (mergeJoin df₁ df₂)).map (fun r => r.2.2)))
      (if 20 ≤ (tailN days (mergeJoin df₁ df₂)).length
        then some (rollingMean 20 ((tailN days (mergeJoin df₁ df₂)).map
          (fun r => r.2.1 / r.2.2)))
        else none)
      (if 60 ≤ (tailN days (mergeJoin df₁ df₂)).length
        then some (rollingMean 60 ((tailN days (mergeJoin df₁ df₂)).map
          (fun r => r.2.1 / r.2.2)))
        else none)
      (if 120 ≤ (tailN days (mergeJoin df₁ df₂)).length
        then some (rollingMean 120 ((tailN days (mergeJoin df₁ df₂)).map
          (fun r => r.2.1 / r.2.2)))
        else none) := by
    rw [hout]
    rfl
  refine ⟨?_, ?_, ?_, ?_, ?_⟩
  · rw [hdet, hrows]
    exact hcols.1
  · rw [hdet, hrows]
    exact hcols.2
  · rw [hrows, hj]
    exact tailN_length days (mergeJoin df₁ df₂)
  · rw [hrows, hdf₁]
    exact joined_dates_sorted index col df₂ days
  · rw [hdet, mkDetailTable_rowLabels, hrows]
    by_cases hc20 : 20 ≤ (tailN days (mergeJoin df₁ df₂)).length <;>
      by_cases hc60 : 60 ≤ (tailN days (mergeJoin df₁ df₂)).length <;>
        by_cases hc120 : 120 ≤ (tailN days (mergeJoin df₁ df₂)).length <;>
          simp [hc20, hc60, hc120, get_stock_name]

/-- Claim C8 witness: a 10-observation pair within one month — all
month/day labels distinct — has 10 date columns in reverse
chronological order and the five fixed rows (no moving-average row fits
a 10-row series). -/
theorem c8_detail_structure_witness :
    (get_two_stocks_comparison shortSpanProvider "A" "B" 20
      = some ((get_two_stocks_comparison shortSpanProvider "A" "B"
          20).getD emptyPair)) ∧
    ((((get_two_stocks_comparison shortSpanProvider "A" "B" 20).getD
        emptyPair).rows.map (fun r => dateLabel r.1)).Nodup) ∧
    (((get_two_stocks_comparison shortSpanProvider "A" "B" 20).getD
        emptyPair).detail.cols.length
      = ((get_two_stocks_comparison shortSpanProvider "A" "B" 20).getD
          emptyPair).rows.length) :=
  ⟨by decide, by decide,
    (c8_detail_structure shortSpanProvider "A" "B" 20
      ((get_two_stocks_comparison shortSpanProvider "A" "B" 20).getD
        emptyPair) (by decide) (by decide)).2.1⟩

end TwStock
